import Mathlib

/-!
Verification of the ingestion gateway in `cloudrun/main.py`.

The development shallowly embeds the request handler `ingest_api`, the bulk
handler `ingest_all_apis`, and the object-key / timestamp formatting they use.
External effects (the upstream HTTP fetch and the storage write) are made
explicit: the fetch outcome is an input of the handler, and the storage writes
it performs are part of its output.  JSON numbers are modelled as integers.
-/

/-- JSON values as decoded by `json.loads` / `response.json()`.  Python decodes
JSON objects to `dict` (modelled as an association list in insertion order),
arrays to `list`, and numbers to `int` (floats are out of scope of this
embedding). -/
inductive Json where
  | null
  | bool (b : Bool)
  | num (n : Int)
  | str (s : String)
  | arr (elems : List Json)
  | obj (members : List (String × Json))

/-- Decimal digits of `n`, most significant first; fuel-structural so that it
reduces in the kernel.  `natToDecAux fuel n` is correct whenever `n ≤ fuel`. -/
def natToDecAux : Nat → Nat → List Char
  | 0, n => [Nat.digitChar n]
  | fuel + 1, n =>
    if n < 10 then [Nat.digitChar n]
    else natToDecAux fuel (n / 10) ++ [Nat.digitChar (n % 10)]

/-- Decimal rendering of a natural number, the model of Python's unpadded
`{n}` / `str(n)` formatting of a non-negative integer. -/
def natToDec (n : Nat) : List Char := natToDecAux n n

/-- Value of a run of decimal digit characters (the model of `int(digits)`). -/
def natFromDec (ds : List Char) : Nat :=
  ds.foldl (fun a c => a * 10 + (c.toNat - 48)) 0

/-- Python's zero-padded decimal formatting `format(n, '0wd')` (used by
`{n:02d}` and by `strftime`'s `%Y`/`%m`/`%d`/`%H`/`%M`/`%S`/`%f` fields). -/
def padZeros (w n : Nat) : List Char :=
  List.replicate (w - (natToDec n).length) '0' ++ natToDec n

/-- Exactly `w` decimal digits of `n` (least significant last); agrees with
`padZeros w n` when `n < 10 ^ w`. -/
def decFixed : Nat → Nat → List Char
  | 0, _ => []
  | w + 1, n => decFixed w (n / 10) ++ [Nat.digitChar (n % 10)]

/-- A UTC instant as produced by `datetime.now(timezone.utc)`. -/
structure Timestamp where
  year : Nat
  month : Nat
  day : Nat
  hour : Nat
  minute : Nat
  second : Nat
  microsecond : Nat

/-- The field ranges guaranteed by Python's `datetime` (years 1–9999, real
calendar months/days, microsecond resolution). -/
def Timestamp.valid (t : Timestamp) : Prop :=
  1 ≤ t.year ∧ t.year ≤ 9999 ∧ 1 ≤ t.month ∧ t.month ≤ 12 ∧ 1 ≤ t.day ∧
  t.day ≤ 31 ∧ t.hour ≤ 23 ∧ t.minute ≤ 59 ∧ t.second ≤ 59 ∧
  t.microsecond ≤ 999999

instance (t : Timestamp) : Decidable t.valid := by
  unfold Timestamp.valid; infer_instance

/-- `f"api_name={api_name}/year={timestamp.year}/month={timestamp.month:02d}/day={timestamp.day:02d}"`
(main.py line 91): the year is rendered unpadded, month and day zero-padded
to two digits. -/
def partition_path (api_name : String) (t : Timestamp) : String :=
  String.mk ("api_name=".data ++ api_name.data ++ "/year=".data ++ natToDec t.year
    ++ "/month=".data ++ padZeros 2 t.month ++ "/day=".data ++ padZeros 2 t.day)

/-- `timestamp.strftime("%Y%m%d_%H%M%S_%f")` (main.py line 94): `%Y` is
zero-padded to four digits, `%f` to six digits of microseconds. -/
def strftime_key (t : Timestamp) : List Char :=
  padZeros 4 t.year ++ padZeros 2 t.month ++ padZeros 2 t.day ++ "_".data
    ++ padZeros 2 t.hour ++ padZeros 2 t.minute ++ padZeros 2 t.second ++ "_".data
    ++ padZeros 6 t.microsecond

/-- `timestamp.strftime("%Y%m%d_%H%M%S_%f")[:-3]` (main.py line 94): the
Python slice `[:-3]` keeps all but the last three characters. -/
def timestamp_str (t : Timestamp) : String :=
  String.mk ((strftime_key t).take ((strftime_key t).length - 3))

/-- `f"{partition_path}/data_{timestamp_str}.json"` (main.py line 95), the
object key of the stored blob. -/
def filename (api_name : String) (t : Timestamp) : String :=
  partition_path api_name t ++ "/data_" ++ timestamp_str t ++ ".json"

/-- `timestamp.isoformat()` for a `timezone.utc`-aware datetime:
`YYYY-MM-DDTHH:MM:SS[.ffffff]+00:00`, the fractional part omitted when the
microsecond field is zero. -/
def isoformat_utc (t : Timestamp) : List Char :=
  padZeros 4 t.year ++ "-".data ++ padZeros 2 t.month ++ "-".data ++ padZeros 2 t.day
    ++ "T".data ++ padZeros 2 t.hour ++ ":".data ++ padZeros 2 t.minute
    ++ ":".data ++ padZeros 2 t.second
    ++ (if t.microsecond = 0 then [] else ".".data ++ padZeros 6 t.microsecond)
    ++ "+00:00".data

/-- Python's `str.replace(pat, rep)`: replace every occurrence of `pat`,
scanning left to right.  Fuel-structural (`fuel` bounds the number of scanned
positions) so that it reduces in the kernel; the `pat ≠ []` guard mirrors that
we only use it with the non-empty pattern `"+00:00"`. -/
def replaceAllAux : Nat → List Char → List Char → List Char → List Char
  | 0, _, _, cs => cs
  | fuel + 1, pat, rep, cs =>
    match cs with
    | [] => []
    | c :: rest =>
      if pat.isPrefixOf (c :: rest) ∧ pat ≠ [] then
        rep ++ replaceAllAux fuel pat rep ((c :: rest).drop pat.length)
      else c :: replaceAllAux fuel pat rep rest

/-- Entry point of the `str.replace` model. -/
def replaceAll (pat rep cs : List Char) : List Char :=
  replaceAllAux cs.length pat rep cs

/-- `timestamp.isoformat().replace('+00:00', 'Z')` (main.py line 99). -/
def ingestion_timestamp (t : Timestamp) : String :=
  String.mk (replaceAll "+00:00".data "Z".data (isoformat_utc t))

/-- Configuration of one registry entry (`POSTMAN_APIS` values). -/
structure ApiConfig where
  url : String
  description : String

/-- The static API registry `POSTMAN_APIS` (main.py lines 22–43), in insertion
order (Python dicts preserve it). -/
def POSTMAN_APIS : List (String × ApiConfig) :=
  [("httpbin", { url := "https://httpbin.org/json", description := "HTTP testing service" }),
   ("jsonplaceholder", { url := "https://jsonplaceholder.typicode.com/posts/1", description := "Fake REST API for testing" }),
   ("reqres", { url := "https://reqres.in/api/users?page=1", description := "Test REST API" }),
   ("cat-facts", { url := "https://catfact.ninja/fact", description := "Cat facts API" }),
   ("dog-api", { url := "https://dog.ceo/api/breeds/list/all", description := "Dog breeds API" })]

/-- The upstream response as `requests` exposes it to the handler:
`status_code`; `errText`, the text of the `HTTPError` that
`raise_for_status()` raises when the status is 4xx/5xx; and `jsonBody`, the
result of `response.json()` — the decoded value, or the decode-error text. -/
structure UpstreamResponse where
  status_code : Nat
  errText : String
  jsonBody : Except String Json

/-- Outcome of the `requests.get(...)` call itself: either it raised a
`RequestException` (connection error, timeout, …) with text `errText`, or it
returned a response. -/
inductive FetchOutcome where
  | raised (errText : String)
  | ok (resp : UpstreamResponse)

/-- The outbound HTTP request the handler issues (main.py lines 76–83). -/
structure UpstreamRequest where
  url : String
  params : List (String × String)
  timeout : Nat
  userAgent : String

/-- One whole-object PUT to the object store (main.py lines 128–130). -/
structure StorageWrite where
  bucket : String
  object_name : String
  content : String
  content_type : String

/-- What a Flask view function returns: `jsonify(...)` alone (a bare
`Response`, served as HTTP 200), or a `(jsonify(...), code)` tuple. -/
inductive HandlerResult where
  | response (body : Json)
  | responseWithCode (body : Json) (code : Nat)

/-- Result of one `ingest_api` call together with the external effects it
performed: the upstream request it issued (if any) and the storage writes. -/
structure IngestOutcome where
  result : HandlerResult
  requestMade : Option UpstreamRequest
  writes : List StorageWrite

/-- A single apostrophe, used in the handler's message strings. -/
def apos : String := String.mk [Char.ofNat 39]

/-- `request.args.to_dict()` (main.py line 70): werkzeug's `MultiDict.to_dict`
with the default `flat=True` keeps, for each key, only its first value, keyed
in first-occurrence order. -/
def toDictAux : List (String × String) → List String → List (String × String)
  | [], _ => []
  | (k, v) :: rest, seen =>
    if k ∈ seen then toDictAux rest seen
    else (k, v) :: toDictAux rest (k :: seen)

/-- Entry point of the `request.args.to_dict()` model. -/
def to_dict (args : List (String × String)) : List (String × String) :=
  toDictAux args []

/-- `len(data) if isinstance(data, list) else 1` (main.py line 137). -/
def records_ingested (data : Json) : Int :=
  match data with
  | .arr xs => (xs.length : Int)
  | _ => 1

/-- Field lookup in a JSON object (Python `body["k"]` / `.get("k")`). -/
def jget (j : Json) (k : String) : Option Json :=
  match j with
  | .obj kvs => kvs.lookup k
  | _ => none

/-- The `full_data` envelope (main.py lines 97–107): metadata plus the raw
decoded upstream body. -/
def full_data (api_name : String) (cfg : ApiConfig) (status : Nat)
    (params : List (String × String)) (data : Json) (t : Timestamp) : Json :=
  Json.obj
    [("metadata", Json.obj
        [("ingestion_timestamp", Json.str (ingestion_timestamp t)),
         ("api_name", Json.str api_name),
         ("api_url", Json.str cfg.url),
         ("api_description", Json.str cfg.description),
         ("response_status", Json.num status),
         ("request_params", Json.obj (params.map (fun p => (p.1, Json.str p.2))))]),
     ("data", data)]

/-- The 500 body of the `except requests.exceptions.RequestException` branch
(main.py lines 109–116). -/
def request_exception_body (api_name e : String) (cfg : ApiConfig) : Json :=
  Json.obj
    [("status", Json.str "error"),
     ("message", Json.str ("Failed to fetch data from " ++ api_name ++ ": " ++ e)),
     ("api_url", Json.str cfg.url),
     ("suggestion", Json.str "Try a different API or check network connectivity")]

/-- Modelled from the spec: the repository does not pin its `requests` version
under `src/` (no requirements file is present), so whether `response.json()`
raises a `RequestException` subclass (requests ≥ 2.27) or a plain
`ValueError` cannot be decided from the source alone.  The spec states that a
JSON-decode failure "falls under unexpected-error handling", so decode
failures are routed to the generic `except Exception` branch (main.py lines
117–122), whose body this is. -/
def decode_failure_body (e : String) : Json :=
  Json.obj
    [("status", Json.str "error"),
     ("message", Json.str ("Unexpected error: " ++ e))]

/-- The 404 body for an unregistered name (main.py lines 59–64). -/
def not_found_body (api_name : String) : Json :=
  Json.obj
    [("status", Json.str "error"),
     ("message", Json.str ("API " ++ apos ++ api_name ++ apos ++ " not found")),
     ("available_apis", Json.arr (POSTMAN_APIS.map (fun p => Json.str p.1)))]

/-- Two-space indentation at nesting depth `d` (the `indent=2` argument of
`json.dumps` at main.py line 126). -/
def indentSp (d : Nat) : List Char := List.replicate (2 * d) ' '

/-- Escaping of one character by `json.dumps` with `ensure_ascii=False`
(CPython's `py_encode_basestring`): backslash, double quote and the control
characters below `0x20` are escaped, everything else is kept literal. -/
def escapeChar (c : Char) : List Char :=
  if c = '\\' then ['\\', '\\']
  else if c = '"' then ['\\', '"']
  else if c = Char.ofNat 8 then ['\\', 'b']
  else if c = Char.ofNat 9 then ['\\', 't']
  else if c = Char.ofNat 10 then ['\\', 'n']
  else if c = Char.ofNat 12 then ['\\', 'f']
  else if c = Char.ofNat 13 then ['\\', 'r']
  else if c.toNat < 32 then
    ['\\', 'u', '0', '0', Nat.digitChar (c.toNat / 16), Nat.digitChar (c.toNat % 16)]
  else [c]

/-- Escaping of a whole string body by `json.dumps`. -/
def escapeStr : List Char → List Char
  | [] => []
  | c :: cs => escapeChar c ++ escapeStr cs

/-- Decimal rendering of a Python `int` by `json.dumps` / `str`. -/
def intDec (i : Int) : List Char :=
  if i < 0 then '-' :: natToDec i.natAbs else natToDec i.natAbs

mutual
/-- `json.dumps(..., indent=2, ensure_ascii=False)` of a value at nesting
depth `d`: CPython's `_make_iterencode` with `item_separator=","` and
`key_separator=": "`, children indented two more spaces, empty containers
rendered inline. -/
def serValue (d : Nat) : Json → List Char
  | .null => "null".data
  | .bool true => "true".data
  | .bool false => "false".data
  | .num i => intDec i
  | .str s => '"' :: (escapeStr s.data ++ ['"'])
  | .arr [] => "[]".data
  | .arr (x :: xs) =>
    '[' :: '\n' :: (indentSp (d + 1) ++ serValue (d + 1) x ++ serArrRest (d + 1) xs
      ++ '\n' :: (indentSp d ++ [']']))
  | .obj [] => ['\x7b', '\x7d']
  | .obj ((k, v) :: kvs) =>
    '\x7b' :: '\n' :: (indentSp (d + 1) ++ ('"' :: (escapeStr k.data
      ++ '"' :: ':' :: ' ' :: serValue (d + 1) v)) ++ serObjRest (d + 1) kvs
      ++ '\n' :: (indentSp d ++ ['\x7d']))

/-- Second and later array items: item separator, newline, indentation. -/
def serArrRest (d : Nat) : List Json → List Char
  | [] => []
  | x :: xs => ',' :: '\n' :: (indentSp d ++ serValue d x ++ serArrRest d xs)

/-- Second and later object members. -/
def serObjRest (d : Nat) : List (String × Json) → List Char
  | [] => []
  | (k, v) :: kvs =>
    ',' :: '\n' :: (indentSp d ++ ('"' :: (escapeStr k.data
      ++ '"' :: ':' :: ' ' :: serValue d v)) ++ serObjRest d kvs)
end

/-- `json.dumps(full_data, indent=2, ensure_ascii=False)` (main.py line 126). -/
def json_dumps (j : Json) : String := String.mk (serValue 0 j)

/-- The whitespace characters `json.loads` skips between tokens. -/
def isWsJson (c : Char) : Bool :=
  (c == ' ') || (c == Char.ofNat 9) || (c == Char.ofNat 10) || (c == Char.ofNat 13)

/-- Skip inter-token whitespace. -/
def skipWs (cs : List Char) : List Char := cs.dropWhile isWsJson

/-- Decoding of a single-character string escape by `json.loads`. -/
def unescapeChar (e : Char) : Option Char :=
  if e = '"' then some '"'
  else if e = '\\' then some '\\'
  else if e = '/' then some '/'
  else if e = 'b' then some (Char.ofNat 8)
  else if e = 'f' then some (Char.ofNat 12)
  else if e = 'n' then some (Char.ofNat 10)
  else if e = 'r' then some (Char.ofNat 13)
  else if e = 't' then some (Char.ofNat 9)
  else none

/-- One hexadecimal digit of a `\uXXXX` escape. -/
def decodeHexDigit (c : Char) : Option Nat :=
  if c.isDigit then some (c.toNat - 48)
  else if 'a' ≤ c ∧ c ≤ 'f' then some (c.toNat - 87)
  else if 'A' ≤ c ∧ c ≤ 'F' then some (c.toNat - 55)
  else none

/-- The four hexadecimal digits of a `\uXXXX` escape. -/
def decodeHex4 (h1 h2 h3 h4 : Char) : Option Nat :=
  match decodeHexDigit h1, decodeHexDigit h2, decodeHexDigit h3, decodeHexDigit h4 with
  | some d1, some d2, some d3, some d4 => some (((d1 * 16 + d2) * 16 + d3) * 16 + d4)
  | _, _, _, _ => none

/-- Body of a JSON string (after the opening quote) as read by `json.loads`:
characters up to the closing quote, with escapes decoded. -/
def parseStrBody : List Char → Option (List Char × List Char)
  | [] => none
  | c :: rest =>
    if c = '"' then some ([], rest)
    else if c = '\\' then
      match rest with
      | [] => none
      | e :: rest' =>
        if e = 'u' then
          match rest' with
          | h1 :: h2 :: h3 :: h4 :: rest'' =>
            match decodeHex4 h1 h2 h3 h4 with
            | some code =>
              match parseStrBody rest'' with
              | some (s, r) => some (Char.ofNat code :: s, r)
              | none => none
            | none => none
          | _ => none
        else
          match unescapeChar e with
          | some c' =>
            match parseStrBody rest' with
            | some (s, r) => some (c' :: s, r)
            | none => none
          | none => none
    else
      match parseStrBody rest with
      | some (s, r) => some (c :: s, r)
      | none => none

mutual
/-- Recursive-descent model of `json.loads` on a character list (restricted to
integer numerals, matching the `Json` model).  `fuel` bounds the recursion
depth; every recursive call is made after at least one character has been
consumed, so `length + 1` fuel always suffices. -/
def parseValue : Nat → List Char → Option (Json × List Char)
  | 0, _ => none
  | fuel + 1, cs =>
    match skipWs cs with
    | [] => none
    | c :: rest =>
      if c = 'n' then
        match rest with
        | 'u' :: 'l' :: 'l' :: r => some (.null, r)
        | _ => none
      else if c = 't' then
        match rest with
        | 'r' :: 'u' :: 'e' :: r => some (.bool true, r)
        | _ => none
      else if c = 'f' then
        match rest with
        | 'a' :: 'l' :: 's' :: 'e' :: r => some (.bool false, r)
        | _ => none
      else if c = '"' then
        match parseStrBody rest with
        | some (s, r) => some (.str (String.mk s), r)
        | none => none
      else if c = '[' then
        match skipWs rest with
        | ']' :: r => some (.arr [], r)
        | _ =>
          match parseValue fuel rest with
          | some (j, r) => parseArrItems fuel [j] r
          | none => none
      else if c = '\x7b' then
        match skipWs rest with
        | '\x7d' :: r => some (.obj [], r)
        | '"' :: r =>
          match parseStrBody r with
          | some (k, r') =>
            match skipWs r' with
            | ':' :: r'' =>
              match parseValue fuel r'' with
              | some (v, r3) => parseObjItems fuel [(String.mk k, v)] r3
              | none => none
            | _ => none
          | none => none
        | _ => none
      else if c = '-' then
        let ds := rest.takeWhile Char.isDigit
        if ds = [] then none
        else some (.num (-(natFromDec ds : Int)), rest.dropWhile Char.isDigit)
      else if c.isDigit then
        some (.num ((natFromDec ((c :: rest).takeWhile Char.isDigit) : Int)),
              (c :: rest).dropWhile Char.isDigit)
      else none

/-- Array items after the first one. -/
def parseArrItems : Nat → List Json → List Char → Option (Json × List Char)
  | 0, _, _ => none
  | fuel + 1, acc, cs =>
    match skipWs cs with
    | ',' :: r =>
      match parseValue fuel r with
      | some (j, r') => parseArrItems fuel (acc ++ [j]) r'
      | none => none
    | ']' :: r => some (.arr acc, r)
    | _ => none

/-- Object members after the first one. -/
def parseObjItems : Nat → List (String × Json) → List Char → Option (Json × List Char)
  | 0, _, _ => none
  | fuel + 1, acc, cs =>
    match skipWs cs with
    | ',' :: r =>
      match skipWs r with
      | '"' :: r' =>
        match parseStrBody r' with
        | some (k, r'') =>
          match skipWs r'' with
          | ':' :: r3 =>
            match parseValue fuel r3 with
            | some (v, r4) => parseObjItems fuel (acc ++ [(String.mk k, v)]) r4
            | none => none
          | _ => none
        | none => none
      | _ => none
    | '\x7d' :: r => some (.obj acc, r)
    | _ => none
end

/-- `json.loads`: parse one value and require only whitespace after it. -/
def json_loads (s : String) : Option Json :=
  match parseValue (s.data.length + 1) s.data with
  | some (j, rest) => if skipWs rest = [] then some j else none
  | none => none

mutual
/-- Node count of a JSON value, a lower bound for the parser fuel needed. -/
def jsize : Json → Nat
  | .arr xs => 1 + jsizeL xs
  | .obj kvs => 1 + jsizeO kvs
  | _ => 1

/-- Node count of an array's elements. -/
def jsizeL : List Json → Nat
  | [] => 0
  | x :: xs => 1 + jsize x + jsizeL xs

/-- Node count of an object's member values. -/
def jsizeO : List (String × Json) → Nat
  | [] => 0
  | (_, v) :: kvs => 1 + jsize v + jsizeO kvs
end

/-- The `/ingest/<api_name>` view function (main.py lines 55–146).  Inputs
beyond the route parameter: `bucket` is the `GCS_BUCKET` environment value,
`args` the query pairs of the incoming request, `fetch` the outcome of the
outbound `requests.get`, and `t` the UTC instant `datetime.now(timezone.utc)`
captured at line 90.  The storage upload itself is recorded in `writes`
(upload failures raise exceptions the handler does not catch, which is outside
this model; `json.dumps` of already-decoded JSON cannot raise, so the
`except (TypeError, ValueError)` branch at lines 141–146 is unreachable). -/
def ingest_api (bucket api_name : String) (args : List (String × String))
    (fetch : FetchOutcome) (t : Timestamp) : IngestOutcome :=
  match POSTMAN_APIS.lookup api_name with
  | none =>
    { result := .responseWithCode (not_found_body api_name) 404,
      requestMade := none, writes := [] }
  | some api_config =>
    let params := to_dict args
    let req : UpstreamRequest :=
      { url := api_config.url, params := params, timeout := 30,
        userAgent := "GCP-API-Ingestion/1.0" }
    match fetch with
    | .raised e =>
      { result := .responseWithCode (request_exception_body api_name e api_config) 500,
        requestMade := some req, writes := [] }
    | .ok response =>
      if 400 ≤ response.status_code ∧ response.status_code < 600 then
        { result := .responseWithCode
            (request_exception_body api_name response.errText api_config) 500,
          requestMade := some req, writes := [] }
      else
        match response.jsonBody with
        | .error e =>
          { result := .responseWithCode (decode_failure_body e) 500,
            requestMade := some req, writes := [] }
        | .ok data =>
          let fname := filename api_name t
          let fd := full_data api_name api_config response.status_code params data t
          let json_str := json_dumps fd
          { result := .response (Json.obj
              [("status", Json.str "success"),
               ("api_name", Json.str api_name),
               ("file", Json.str fname),
               ("gcs_path", Json.str ("gs://" ++ bucket ++ "/" ++ fname)),
               ("records_ingested", Json.num (records_ingested data)),
               ("ingestion_timestamp", Json.str (ingestion_timestamp t))]),
            requestMade := some req,
            writes := [{ bucket := bucket, object_name := fname,
                         content := json_str, content_type := "application/json" }] }

/-- The `TypeError` text CPython produces for `result[1]` when `result` is a
bare werkzeug `Response` (which defines no `__getitem__`). -/
def response_not_subscriptable : String :=
  apos ++ "Response" ++ apos ++ " object is not subscriptable"

/-- One iteration of the `/ingest-all` loop body (main.py lines 153–168).
`ingest_api` returns a bare `Response` on success but a `(Response, code)`
tuple on error; `result[1]` on a bare `Response` raises `TypeError`, which the
`except Exception` arm turns into an error entry.  In the tuple case
`result[1] == 200` selects the tag and `result[0].get_json()` recovers the
body. -/
def bulk_entry (api_name : String) (o : IngestOutcome) : Json :=
  match o.result with
  | .response _ =>
    Json.obj
      [("api_name", Json.str api_name),
       ("status", Json.str "error"),
       ("error", Json.str response_not_subscriptable)]
  | .responseWithCode body code =>
    Json.obj
      [("api_name", Json.str api_name),
       ("status", Json.str (if code == 200 then "success" else "error")),
       ("result", body)]

/-- The `/ingest-all` view function (main.py lines 148–174).  It calls
`ingest_api` directly for every registry key in order; since it runs inside
the `/ingest-all` request context, `request.args` (hence `args`) is the bulk
request's own query string.  `fetchOf` and `tOf` give each per-API call its
fetch outcome and its UTC instant. -/
def ingest_all_apis (bucket : String) (args : List (String × String))
    (fetchOf : String → FetchOutcome) (tOf : String → Timestamp) : Json :=
  Json.obj
    [("status", Json.str "completed"),
     ("message", Json.str "Bulk ingestion completed"),
     ("results", Json.arr (POSTMAN_APIS.map (fun p =>
        bulk_entry p.1 (ingest_api bucket p.1 args (fetchOf p.1) (tOf p.1)))))]

/-- The failure modes of `ingest_api` that occur before any storage write:
unknown name, transport-level `RequestException`, 4xx/5xx upstream status
(`raise_for_status`), or JSON-decode failure. -/
def fails_before_storage (api_name : String) (fetch : FetchOutcome) : Prop :=
  POSTMAN_APIS.lookup api_name = none ∨
  (∃ e, fetch = .raised e) ∨
  (∃ r, fetch = .ok r ∧ 400 ≤ r.status_code ∧ r.status_code < 600) ∨
  (∃ r e, fetch = .ok r ∧ r.jsonBody = .error e)

/-- `pat` occurs as a contiguous substring of `hay`. -/
def containsSub (hay pat : List Char) : Bool :=
  (List.range (hay.length + 1)).any (fun i => pat.isPrefixOf (hay.drop i))

/-- The calendar date encoded in the first eight characters (`YYYYMMDD`) of
the object key's trailing timestamp. -/
def tsDateDigits (cs : List Char) : Nat × Nat × Nat :=
  (natFromDec (cs.take 4), natFromDec ((cs.drop 4).take 2),
   natFromDec ((cs.drop 6).take 2))

/-- The calendar date encoded in the first ten characters (`YYYY-MM-DD`) of an
ISO-8601 timestamp. -/
def isoDateDigits (cs : List Char) : Nat × Nat × Nat :=
  (natFromDec (cs.take 4), natFromDec ((cs.drop 5).take 2),
   natFromDec ((cs.drop 8).take 2))

/-- Guard on the characters following a serialized value: parsing must not be
able to extend a numeral into them.  Holds for the separators and closers
`json.dumps` emits and for the end of input. -/
def DigitGuard : List Char → Prop
  | [] => True
  | c :: _ => c.isDigit = false

/-- Statement of C1 at fixed inputs: on the success path the single stored
object takes `filename` as its key, and the key has the exact partitioned
form `api_name=<name>/year=<Y>/month=<MM>/day=<DD>/data_<YYYYMMDD_HHMMSS_mmm>.json`
built from the one instant `t`: month/day segments two digits, the trailing
timestamp `YYYYMMDD_HHMMSS` plus a three-digit millisecond suffix
(`microsecond / 1000`), every segment decoding back to the instant's calendar
field. -/
def C1Prop (bucket api_name : String) (args : List (String × String))
    (r : UpstreamResponse) (t : Timestamp) : Prop :=
  (ingest_api bucket api_name args (.ok r) t).writes.map StorageWrite.object_name
      = [filename api_name t]
  ∧ (filename api_name t).data
      = "api_name=".data ++ api_name.data ++ "/year=".data ++ natToDec t.year
        ++ "/month=".data ++ padZeros 2 t.month ++ "/day=".data ++ padZeros 2 t.day
        ++ "/data_".data ++ padZeros 4 t.year ++ padZeros 2 t.month ++ padZeros 2 t.day
        ++ "_".data ++ padZeros 2 t.hour ++ padZeros 2 t.minute ++ padZeros 2 t.second
        ++ "_".data ++ padZeros 3 (t.microsecond / 1000) ++ ".json".data
  ∧ (padZeros 2 t.month).length = 2 ∧ (padZeros 2 t.day).length = 2
  ∧ (padZeros 3 (t.microsecond / 1000)).length = 3
  ∧ natFromDec (natToDec t.year) = t.year
  ∧ natFromDec (padZeros 2 t.month) = t.month
  ∧ natFromDec (padZeros 2 t.day) = t.day
  ∧ natFromDec (padZeros 3 (t.microsecond / 1000)) = t.microsecond / 1000

/-- Statement of C10 at fixed inputs: the success response body, the stored
record's metadata and the object key are all derived from the single instant
`t`, and the calendar date read off the key's partition segments, the key's
`YYYYMMDD` filename digits and the ISO `ingestion_timestamp` all agree. -/
def C10Prop (bucket api_name : String) (args : List (String × String))
    (r : UpstreamResponse) (data : Json) (cfg : ApiConfig) (t : Timestamp) : Prop :=
  (∃ body, (ingest_api bucket api_name args (.ok r) t).result = .response body
    ∧ jget body "ingestion_timestamp" = some (Json.str (ingestion_timestamp t))
    ∧ jget body "file" = some (Json.str (filename api_name t)))
  ∧ (∃ meta, jget (full_data api_name cfg r.status_code (to_dict args) data t) "metadata"
        = some (Json.obj meta)
      ∧ meta.lookup "ingestion_timestamp" = some (Json.str (ingestion_timestamp t)))
  ∧ tsDateDigits (timestamp_str t).data = (t.year, t.month, t.day)
  ∧ isoDateDigits (ingestion_timestamp t).data = (t.year, t.month, t.day)
  ∧ (partition_path api_name t).data
      = "api_name=".data ++ api_name.data ++ "/year=".data ++ natToDec t.year
        ++ "/month=".data ++ padZeros 2 t.month ++ "/day=".data ++ padZeros 2 t.day
  ∧ natFromDec (natToDec t.year) = t.year
  ∧ natFromDec (padZeros 2 t.month) = t.month
  ∧ natFromDec (padZeros 2 t.day) = t.day

/-- Statement of C6 at fixed inputs: an unregistered name yields the 404 body
whose `available_apis` lists every registry key, no upstream request, no
storage write, and a result independent of the fetch outcome and instant. -/
def C6Prop (bucket api_name : String) (args : List (String × String))
    (fetch : FetchOutcome) (t : Timestamp) : Prop :=
  (ingest_api bucket api_name args fetch t).result
      = .responseWithCode (not_found_body api_name) 404
  ∧ jget (not_found_body api_name) "available_apis"
      = some (Json.arr (POSTMAN_APIS.map (fun p => Json.str p.1)))
  ∧ (ingest_api bucket api_name args fetch t).requestMade = none
  ∧ (ingest_api bucket api_name args fetch t).writes = []
  ∧ ∀ fetch2 t2, ingest_api bucket api_name args fetch2 t2
      = ingest_api bucket api_name args fetch t

/-- Statement of C9 at fixed inputs: at most one storage write per request;
none at all when the request fails before a successful fetch; and a write
implies the fetch succeeded (response obtained, no 4xx/5xx, body decoded). -/
def C9Prop (bucket api_name : String) (args : List (String × String))
    (fetch : FetchOutcome) (t : Timestamp) : Prop :=
  (ingest_api bucket api_name args fetch t).writes.length ≤ 1
  ∧ (fails_before_storage api_name fetch →
      (ingest_api bucket api_name args fetch t).writes = [])
  ∧ ((ingest_api bucket api_name args fetch t).writes ≠ [] →
      ∃ r data, fetch = .ok r ∧ ¬(400 ≤ r.status_code ∧ r.status_code < 600)
        ∧ r.jsonBody = .ok data)

/-- Statement of C5 at fixed inputs: a 2xx response whose body fails to decode
is answered by the generic unexpected-error branch — a 500 whose body has
exactly the `status`/`message` fields, message `Unexpected error: <e>`, no
`api_url` field — and differs from every upstream-fetch-failure body. -/
def C5Prop (bucket api_name : String) (args : List (String × String))
    (r : UpstreamResponse) (e : String) (t : Timestamp) : Prop :=
  (ingest_api bucket api_name args (.ok r) t).result
      = .responseWithCode (decode_failure_body e) 500
  ∧ jget (decode_failure_body e) "message" = some (Json.str ("Unexpected error: " ++ e))
  ∧ jget (decode_failure_body e) "api_url" = none
  ∧ ∀ cfg e2, decode_failure_body e ≠ request_exception_body api_name e2 cfg

/-- Statement of C2's per-request part at fixed inputs: the success response
carries `records_ingested` equal to `records_ingested data`. -/
def C2Prop (bucket api_name : String) (args : List (String × String))
    (r : UpstreamResponse) (data : Json) (t : Timestamp) : Prop :=
  ∃ body, (ingest_api bucket api_name args (.ok r) t).result = .response body
    ∧ jget body "records_ingested" = some (Json.num (records_ingested data))

/-- Statement of C8's amended form at fixed inputs: the upstream request uses
the registry URL, the flattened query dictionary (one value per key — the
first), a 30-second timeout and the fixed user-agent; flattening keeps keys
unique and preserves each key's first value. -/
def C8Prop (bucket api_name : String) (args : List (String × String))
    (cfg : ApiConfig) (fetch : FetchOutcome) (t : Timestamp) : Prop :=
  (ingest_api bucket api_name args fetch t).requestMade
      = some { url := cfg.url, params := to_dict args, timeout := 30,
               userAgent := "GCP-API-Ingestion/1.0" }
  ∧ ((to_dict args).map Prod.fst).Nodup
  ∧ (∀ k, (to_dict args).lookup k = args.lookup k)

/-- Statement of C4's amended form at fixed inputs: the handler returns either
a bare success response whose `gcs_path` starts
`gs://<bucket>/api_name=<name>/`, or a 500; and when the failure is
transport-level or an upstream 4xx/5xx status, the 500 body surfaces the
upstream error text in `message` and the attempted URL in `api_url`. -/
def C4Prop (bucket api_name : String) (args : List (String × String))
    (cfg : ApiConfig) (fetch : FetchOutcome) (t : Timestamp) : Prop :=
  (∃ body rest, (ingest_api bucket api_name args fetch t).result = .response body
      ∧ jget body "gcs_path"
          = some (Json.str (String.mk
              (("gs://" ++ bucket ++ "/api_name=" ++ api_name ++ "/").data ++ rest))))
  ∨ (∃ body, (ingest_api bucket api_name args fetch t).result = .responseWithCode body 500
      ∧ (∀ e, fetch = .raised e →
            jget body "message"
                = some (Json.str ("Failed to fetch data from " ++ api_name ++ ": " ++ e))
            ∧ jget body "api_url" = some (Json.str cfg.url))
      ∧ (∀ r, fetch = .ok r → 400 ≤ r.status_code → r.status_code < 600 →
            jget body "message"
                = some (Json.str ("Failed to fetch data from " ++ api_name ++ ": " ++ r.errText))
            ∧ jget body "api_url" = some (Json.str cfg.url)))

/-- Statement of C7 at fixed inputs: the stored object's text is
`json_dumps` of the `full_data` record; parsing it back yields the record
unchanged, whose `data` member is the original decoded upstream body and whose
`metadata` member has exactly the six fields of section 3. -/
def C7Prop (bucket api_name : String) (args : List (String × String))
    (r : UpstreamResponse) (data : Json) (cfg : ApiConfig) (t : Timestamp) : Prop :=
  ((ingest_api bucket api_name args (.ok r) t).writes.map StorageWrite.content
      = [json_dumps (full_data api_name cfg r.status_code (to_dict args) data t)])
  ∧ json_loads (json_dumps (full_data api_name cfg r.status_code (to_dict args) data t))
      = some (full_data api_name cfg r.status_code (to_dict args) data t)
  ∧ jget (full_data api_name cfg r.status_code (to_dict args) data t) "data" = some data
  ∧ (∃ meta, jget (full_data api_name cfg r.status_code (to_dict args) data t) "metadata"
        = some (Json.obj meta)
      ∧ meta.map Prod.fst
          = ["ingestion_timestamp", "api_name", "api_url", "api_description",
             "response_status", "request_params"])

/-! ### Decimal rendering lemmas -/

theorem natToDecAux_congr :
    ∀ n f₁ f₂, n ≤ f₁ → n ≤ f₂ → natToDecAux f₁ n = natToDecAux f₂ n := by
  intro n
  induction n using Nat.strong_induction_on with
  | _ n ih =>
    intro f₁ f₂ h₁ h₂
    cases f₁ with
    | zero =>
      have hn : n = 0 := by omega
      subst hn
      cases f₂ <;> simp [natToDecAux]
    | succ g₁ =>
      cases f₂ with
      | zero =>
        have hn : n = 0 := by omega
        subst hn
        simp [natToDecAux]
      | succ g₂ =>
        by_cases h : n < 10
        · simp [natToDecAux, h]
        · have hd : n / 10 < n := Nat.div_lt_self (by omega) (by omega)
          simp only [natToDecAux, if_neg h]
          rw [ih (n / 10) hd g₁ g₂ (by omega) (by omega)]

theorem natToDec_eq (n : Nat) :
    natToDec n =
      if n < 10 then [Nat.digitChar n]
      else natToDec (n / 10) ++ [Nat.digitChar (n % 10)] := by
  unfold natToDec
  by_cases h : n < 10
  · rw [if_pos h]
    cases n with
    | zero => rfl
    | succ m => simp [natToDecAux, h]
  · rw [if_neg h]
    cases n with
    | zero => omega
    | succ m =>
      simp only [natToDecAux, if_neg h]
      have hlt : (m + 1) / 10 < m + 1 := Nat.div_lt_self (by omega) (by omega)
      rw [natToDecAux_congr ((m + 1) / 10) m ((m + 1) / 10) (by omega) (by omega)]

theorem natToDec_ne_nil (n : Nat) : natToDec n ≠ [] := by
  rw [natToDec_eq]; split <;> simp

theorem digitChar_isDigit : ∀ m < 10, (Nat.digitChar m).isDigit = true := by decide

theorem digitChar_toNat : ∀ m < 10, (Nat.digitChar m).toNat = 48 + m := by decide

theorem natToDec_digits (n : Nat) : ∀ c ∈ natToDec n, c.isDigit = true := by
  induction n using Nat.strong_induction_on with
  | _ n ih =>
    rw [natToDec_eq]
    split
    · next h =>
      intro c hc
      simp only [List.mem_singleton] at hc
      subst hc
      exact digitChar_isDigit n h
    · next h =>
      intro c hc
      rcases List.mem_append.mp hc with hc | hc
      · exact ih (n / 10) (Nat.div_lt_self (by omega) (by omega)) c hc
      · simp only [List.mem_singleton] at hc
        subst hc
        exact digitChar_isDigit _ (Nat.mod_lt _ (by omega))

theorem natFromDec_append_singleton (ds : List Char) (c : Char) :
    natFromDec (ds ++ [c]) = natFromDec ds * 10 + (c.toNat - 48) := by
  unfold natFromDec
  rw [List.foldl_append]
  rfl

theorem natFromDec_natToDec (n : Nat) : natFromDec (natToDec n) = n := by
  induction n using Nat.strong_induction_on with
  | _ n ih =>
    rw [natToDec_eq]
    split
    · next h =>
      simp only [natFromDec, List.foldl_cons, List.foldl_nil]
      rw [digitChar_toNat n h]
      omega
    · next h =>
      rw [natFromDec_append_singleton, ih (n / 10) (Nat.div_lt_self (by omega) (by omega))]
      rw [digitChar_toNat (n % 10) (Nat.mod_lt _ (by omega))]
      omega

theorem natFromDec_replicate_zero (k : Nat) (ds : List Char) :
    natFromDec (List.replicate k '0' ++ ds) = natFromDec ds := by
  induction k with
  | zero => simp
  | succ k ih =>
    simp only [List.replicate_succ, List.cons_append]
    unfold natFromDec at ih ⊢
    simp only [List.foldl_cons]
    have h0 : (0 : Nat) * 10 + ('0'.toNat - 48) = 0 := by decide
    rw [h0]
    exact ih

/-! ### Fixed-width decimal lemmas -/

theorem decFixed_length (w : Nat) : ∀ n, (decFixed w n).length = w := by
  induction w with
  | zero => intro n; rfl
  | succ w ih => intro n; simp [decFixed, ih]

theorem decFixed_zero (w : Nat) : decFixed w 0 = List.replicate w '0' := by
  induction w with
  | zero => rfl
  | succ w ih =>
    show decFixed w (0 / 10) ++ [Nat.digitChar (0 % 10)] = _
    rw [Nat.zero_div, Nat.zero_mod, ih, List.replicate_succ']
    rfl

theorem decFixed_add (a b : Nat) :
    ∀ n, decFixed (a + b) n = decFixed a (n / 10 ^ b) ++ decFixed b (n % 10 ^ b) := by
  induction b with
  | zero => intro n; simp [decFixed]
  | succ b ih =>
    intro n
    show decFixed ((a + b) + 1) n = _
    rw [show decFixed ((a + b) + 1) n
          = decFixed (a + b) (n / 10) ++ [Nat.digitChar (n % 10)] from rfl]
    rw [ih (n / 10)]
    rw [show decFixed (b + 1) (n % 10 ^ (b + 1))
          = decFixed b ((n % 10 ^ (b + 1)) / 10)
            ++ [Nat.digitChar ((n % 10 ^ (b + 1)) % 10)] from rfl]
    have e1 : n / 10 / 10 ^ b = n / 10 ^ (b + 1) := by
      rw [Nat.div_div_eq_div_mul]
      congr 1
      rw [pow_succ]
      ring
    have e2 : (n % 10 ^ (b + 1)) / 10 = n / 10 % 10 ^ b := by
      rw [show (10 : Nat) ^ (b + 1) = 10 * 10 ^ b from by rw [pow_succ]; ring]
      exact Nat.mod_mul_right_div_self n 10 (10 ^ b)
    have e3 : (n % 10 ^ (b + 1)) % 10 = n % 10 := by
      apply Nat.mod_mod_of_dvd
      exact ⟨10 ^ b, by rw [pow_succ]; ring⟩
    rw [e1, e2, e3, List.append_assoc]

theorem natToDec_length_le (w n : Nat) (hw : 1 ≤ w) (h : n < 10 ^ w) :
    (natToDec n).length ≤ w := by
  induction n using Nat.strong_induction_on generalizing w with
  | _ n ih =>
    rw [natToDec_eq]
    split
    · simpa using hw
    · next hge =>
      simp only [List.length_append, List.length_cons, List.length_nil]
      have hw2 : 2 ≤ w := by
        by_contra hh
        have hw1 : w = 1 := by omega
        subst hw1
        rw [pow_one] at h
        omega
      have h0 : (0 : Nat) < 10 := by omega
      have hpow : 10 ^ (w - 1) * 10 = 10 ^ w := by
        rw [← pow_succ]
        congr 1
        omega
      have hdiv : n / 10 < 10 ^ (w - 1) := by
        rw [Nat.div_lt_iff_lt_mul h0, hpow]
        exact h
      have := ih (n / 10) (Nat.div_lt_self (by omega) (by omega)) (w - 1) (by omega) hdiv
      omega

theorem padZeros_eq_decFixed (w n : Nat) (hw : 1 ≤ w) (h : n < 10 ^ w) :
    padZeros w n = decFixed w n := by
  induction n using Nat.strong_induction_on generalizing w with
  | _ n ih =>
    by_cases h10 : n < 10
    · unfold padZeros
      rw [natToDec_eq, if_pos h10]
      obtain ⟨v, rfl⟩ : ∃ v, w = v + 1 := ⟨w - 1, by omega⟩
      rw [show decFixed (v + 1) n = decFixed v (n / 10) ++ [Nat.digitChar (n % 10)] from rfl]
      rw [Nat.div_eq_of_lt h10, Nat.mod_eq_of_lt h10, decFixed_zero]
      simp
    · have hw2 : 2 ≤ w := by
        by_contra hh
        have hw1 : w = 1 := by omega
        subst hw1
        rw [pow_one] at h
        omega
      have h0 : (0 : Nat) < 10 := by omega
      have hpow : 10 ^ (w - 1) * 10 = 10 ^ w := by
        rw [← pow_succ]
        congr 1
        omega
      have hdiv : n / 10 < 10 ^ (w - 1) := by
        rw [Nat.div_lt_iff_lt_mul h0, hpow]
        exact h
      have ihh := ih (n / 10) (Nat.div_lt_self (by omega) (by omega)) (w - 1) (by omega) hdiv
      have hlen : (natToDec (n / 10)).length ≤ w - 1 :=
        natToDec_length_le (w - 1) (n / 10) (by omega) hdiv
      unfold padZeros at ihh ⊢
      rw [natToDec_eq, if_neg h10]
      simp only [List.length_append, List.length_cons, List.length_nil]
      obtain ⟨v, rfl⟩ : ∃ v, w = v + 1 := ⟨w - 1, by omega⟩
      simp only [Nat.add_sub_cancel] at ihh
      rw [show decFixed (v + 1) n = decFixed v (n / 10) ++ [Nat.digitChar (n % 10)] from rfl]
      rw [show v + 1 - ((natToDec (n / 10)).length + (0 + 1)) = v - (natToDec (n / 10)).length from by omega]
      rw [← ihh]
      simp [List.append_assoc]

theorem padZeros_length (w n : Nat) (hw : 1 ≤ w) (h : n < 10 ^ w) :
    (padZeros w n).length = w := by
  rw [padZeros_eq_decFixed w n hw h]
  exact decFixed_length w n

theorem natFromDec_padZeros (w n : Nat) : natFromDec (padZeros w n) = n := by
  unfold padZeros
  rw [natFromDec_replicate_zero, natFromDec_natToDec]

theorem padZeros_digits (w n : Nat) : ∀ c ∈ padZeros w n, c.isDigit = true := by
  intro c hc
  unfold padZeros at hc
  rcases List.mem_append.mp hc with hc | hc
  · have := List.eq_of_mem_replicate hc
    subst this
    decide
  · exact natToDec_digits n c hc

/-! ### List slicing helpers -/

theorem take_len_app {α : Type} (A B : List α) : (A ++ B).take A.length = A := by
  induction A with
  | nil => rfl
  | cons a A ih => simp [ih]

theorem drop_len_app {α : Type} (A B : List α) : (A ++ B).drop A.length = B := by
  induction A with
  | nil => rfl
  | cons a A ih => simp [ih]

theorem take_eq_of_len {α : Type} (A B : List α) (n : Nat) (h : A.length = n) :
    (A ++ B).take n = A := by
  subst h
  exact take_len_app A B

theorem drop_eq_of_len {α : Type} (A B : List α) (n : Nat) (h : A.length = n) :
    (A ++ B).drop n = B := by
  subst h
  exact drop_len_app A B

theorem take_len_add_app {α : Type} (A B : List α) (k : Nat) :
    (A ++ B).take (A.length + k) = A ++ B.take k := by
  induction A with
  | nil => simp
  | cons a A ih =>
    rw [List.length_cons, show A.length + 1 + k = (A.length + k) + 1 from by omega]
    rw [List.cons_append, List.take_succ_cons, ih, List.cons_append]

/-! ### String embedding helpers -/

theorem data_mk (cs : List Char) : (String.mk cs).data = cs := rfl

theorem data_append (s t : String) : (s ++ t).data = s.data ++ t.data := by
  cases s; cases t; rfl

theorem str_ext {s t : String} (h : s.data = t.data) : s = t := by
  cases s; cases t; exact congrArg String.mk h

/-! ### Object-key and timestamp formatting lemmas -/

theorem timestamp_str_data (t : Timestamp) (h : t.valid) :
    (timestamp_str t).data
      = padZeros 4 t.year ++ padZeros 2 t.month ++ padZeros 2 t.day ++ "_".data
        ++ padZeros 2 t.hour ++ padZeros 2 t.minute ++ padZeros 2 t.second ++ "_".data
        ++ padZeros 3 (t.microsecond / 1000) := by
  obtain ⟨hy1, hy2, hm1, hm2, hd1, hd2, hh, hmi, hs, hu⟩ := h
  have p2 : (10 : Nat) ^ 2 = 100 := by norm_num
  have p3 : (10 : Nat) ^ 3 = 1000 := by norm_num
  have p4 : (10 : Nat) ^ 4 = 10000 := by norm_num
  have p6 : (10 : Nat) ^ 6 = 1000000 := by norm_num
  have l4 : (padZeros 4 t.year).length = 4 := padZeros_length 4 _ (by omega) (by omega)
  have lmo : (padZeros 2 t.month).length = 2 := padZeros_length 2 _ (by omega) (by omega)
  have ld : (padZeros 2 t.day).length = 2 := padZeros_length 2 _ (by omega) (by omega)
  have lh : (padZeros 2 t.hour).length = 2 := padZeros_length 2 _ (by omega) (by omega)
  have lmi : (padZeros 2 t.minute).length = 2 := padZeros_length 2 _ (by omega) (by omega)
  have ls : (padZeros 2 t.second).length = 2 := padZeros_length 2 _ (by omega) (by omega)
  have l6 : (padZeros 6 t.microsecond).length = 6 := padZeros_length 6 _ (by omega) (by omega)
  have hsplit : padZeros 6 t.microsecond
      = padZeros 3 (t.microsecond / 1000) ++ decFixed 3 (t.microsecond % 1000) := by
    rw [padZeros_eq_decFixed 6 _ (by omega) (by omega)]
    rw [show (6 : Nat) = 3 + 3 from rfl, decFixed_add 3 3, p3]
    rw [padZeros_eq_decFixed 3 _ (by omega) (by omega : t.microsecond / 1000 < 10 ^ 3)]
  set PRE := padZeros 4 t.year ++ padZeros 2 t.month ++ padZeros 2 t.day ++ "_".data
      ++ padZeros 2 t.hour ++ padZeros 2 t.minute ++ padZeros 2 t.second ++ "_".data
    with hPRE
  have hkey : strftime_key t = PRE ++ padZeros 6 t.microsecond := by
    rw [hPRE]
    simp [strftime_key, List.append_assoc]
  have hlenPRE : PRE.length = 16 := by
    rw [hPRE]
    simp [List.length_append, l4, lmo, ld, lh, lmi, ls]
  have hlen : (strftime_key t).length - 3 = PRE.length + 3 := by
    rw [hkey]
    simp [List.length_append, l6, hlenPRE]
  rw [timestamp_str, data_mk, hlen, hkey, take_len_add_app, hsplit]
  rw [take_eq_of_len _ _ 3 (padZeros_length 3 _ (by omega) (by omega))]

theorem partition_path_data (api_name : String) (t : Timestamp) :
    (partition_path api_name t).data
      = "api_name=".data ++ api_name.data ++ "/year=".data ++ natToDec t.year
        ++ "/month=".data ++ padZeros 2 t.month ++ "/day=".data ++ padZeros 2 t.day := rfl

theorem filename_data (api_name : String) (t : Timestamp) :
    (filename api_name t).data
      = (partition_path api_name t).data ++ "/data_".data
        ++ (timestamp_str t).data ++ ".json".data := by
  unfold filename
  rw [data_append, data_append, data_append]

/-! ### The `replace('+00:00', 'Z')` computation -/

theorem no_plus_append {A B : List Char}
    (ha : ∀ c ∈ A, c ≠ '+') (hb : ∀ c ∈ B, c ≠ '+') : ∀ c ∈ A ++ B, c ≠ '+' := by
  intro c hc
  rcases List.mem_append.mp hc with h | h
  exacts [ha c h, hb c h]

theorem no_plus_pad (w n : Nat) : ∀ c ∈ padZeros w n, c ≠ '+' := by
  intro c hc heq
  have hd := padZeros_digits w n c hc
  subst heq
  exact absurd hd (by decide)

theorem replaceAllAux_no_plus :
    ∀ (pre : List Char) (fuel : Nat) (post : List Char),
      (∀ c ∈ pre, c ≠ '+') → pre.length ≤ fuel →
      replaceAllAux fuel "+00:00".data "Z".data (pre ++ post)
        = pre ++ replaceAllAux (fuel - pre.length) "+00:00".data "Z".data post := by
  intro pre
  induction pre with
  | nil => intro fuel post _ _; simp
  | cons c pre ih =>
    intro fuel post h hf
    cases fuel with
    | zero => exact absurd hf (by simp)
    | succ fuel =>
      have hc : c ≠ '+' := h c (List.mem_cons_self _ _)
      have hpre : ("+00:00".data.isPrefixOf (c :: (pre ++ post))) = false := by
        show (('+' :: "00:00".data).isPrefixOf (c :: (pre ++ post))) = false
        simp only [List.isPrefixOf, Bool.and_eq_false_iff, beq_eq_false_iff_ne]
        left
        exact fun hh => hc hh.symm
      show (if "+00:00".data.isPrefixOf (c :: (pre ++ post)) ∧ "+00:00".data ≠ [] then _ else _) = _
      rw [if_neg (by simp [hpre])]
      simp only [List.append_eq]
      rw [ih fuel post (fun x hx => h x (List.mem_cons_of_mem _ hx))
            (by simp only [List.length_cons] at hf; omega)]
      rw [show fuel + 1 - (c :: pre).length = fuel - pre.length from by
            simp only [List.length_cons]; omega]
      simp

theorem drop_len_add_app {α : Type} (A B : List α) (k : Nat) :
    (A ++ B).drop (A.length + k) = B.drop k := by
  induction A with
  | nil => simp
  | cons a A ih =>
    rw [List.length_cons, show A.length + 1 + k = (A.length + k) + 1 from by omega]
    rw [List.cons_append, List.drop_succ_cons, ih]

theorem drop_app_of_len {α : Type} (A B : List α) (n m k : Nat)
    (h : A.length = m) (hn : n = m + k) : (A ++ B).drop n = B.drop k := by
  subst hn
  subst h
  exact drop_len_add_app A B k

theorem drop_cons_of {α : Type} (a : α) (l : List α) (n m : Nat) (h : n = m + 1) :
    (a :: l).drop n = l.drop m := by
  subst h
  rfl

theorem ingestion_timestamp_data (t : Timestamp) :
    (ingestion_timestamp t).data
      = padZeros 4 t.year ++ "-".data ++ padZeros 2 t.month ++ "-".data ++ padZeros 2 t.day
        ++ "T".data ++ padZeros 2 t.hour ++ ":".data ++ padZeros 2 t.minute
        ++ ":".data ++ padZeros 2 t.second
        ++ (if t.microsecond = 0 then [] else ".".data ++ padZeros 6 t.microsecond)
        ++ "Z".data := by
  set PRE := padZeros 4 t.year ++ "-".data ++ padZeros 2 t.month ++ "-".data ++ padZeros 2 t.day
      ++ "T".data ++ padZeros 2 t.hour ++ ":".data ++ padZeros 2 t.minute
      ++ ":".data ++ padZeros 2 t.second
      ++ (if t.microsecond = 0 then [] else ".".data ++ padZeros 6 t.microsecond)
    with hPRE
  have hiso : isoformat_utc t = PRE ++ "+00:00".data := rfl
  have hplus : ∀ c ∈ PRE, c ≠ '+' := by
    rw [hPRE]
    iterate 11 apply no_plus_append
    · exact no_plus_pad _ _
    · decide
    · exact no_plus_pad _ _
    · decide
    · exact no_plus_pad _ _
    · decide
    · exact no_plus_pad _ _
    · decide
    · exact no_plus_pad _ _
    · decide
    · exact no_plus_pad _ _
    · by_cases hmu : t.microsecond = 0
      · simp [hmu]
      · simp only [if_neg hmu]
        exact no_plus_append (by decide) (no_plus_pad _ _)
  unfold ingestion_timestamp
  rw [data_mk]
  unfold replaceAll
  rw [hiso, List.length_append]
  rw [replaceAllAux_no_plus PRE (PRE.length + "+00:00".data.length) "+00:00".data hplus (by omega)]
  rw [show PRE.length + "+00:00".data.length - PRE.length = 6 from by
        rw [show ("+00:00".data).length = 6 from rfl]; omega]
  rw [show replaceAllAux 6 "+00:00".data "Z".data "+00:00".data = "Z".data from rfl]

theorem tsDateDigits_timestamp_str (t : Timestamp) (h : t.valid) :
    tsDateDigits (timestamp_str t).data = (t.year, t.month, t.day) := by
  have hv := h
  obtain ⟨hy1, hy2, hm1, hm2, hd1, hd2, hh, hmi, hs, hu⟩ := hv
  have p2 : (10 : Nat) ^ 2 = 100 := by norm_num
  have p4 : (10 : Nat) ^ 4 = 10000 := by norm_num
  have l4 : (padZeros 4 t.year).length = 4 := padZeros_length 4 _ (by omega) (by omega)
  have lmo : (padZeros 2 t.month).length = 2 := padZeros_length 2 _ (by omega) (by omega)
  rw [timestamp_str_data t h]
  unfold tsDateDigits
  rw [show padZeros 4 t.year ++ padZeros 2 t.month ++ padZeros 2 t.day ++ "_".data
        ++ padZeros 2 t.hour ++ padZeros 2 t.minute ++ padZeros 2 t.second ++ "_".data
        ++ padZeros 3 (t.microsecond / 1000)
      = padZeros 4 t.year ++ (padZeros 2 t.month ++ (padZeros 2 t.day ++ ("_".data
        ++ padZeros 2 t.hour ++ padZeros 2 t.minute ++ padZeros 2 t.second ++ "_".data
        ++ padZeros 3 (t.microsecond / 1000)))) from by simp [List.append_assoc]]
  rw [take_eq_of_len _ _ 4 l4]
  rw [drop_app_of_len _ _ 6 4 2 l4 (by norm_num)]
  rw [drop_eq_of_len _ _ 4 l4]
  rw [take_eq_of_len _ _ 2 lmo]
  rw [drop_eq_of_len _ _ 2 lmo]
  rw [take_eq_of_len _ _ 2 (padZeros_length 2 _ (by omega) (by omega))]
  rw [natFromDec_padZeros, natFromDec_padZeros, natFromDec_padZeros]

theorem isoDateDigits_ingestion_timestamp (t : Timestamp) (h : t.valid) :
    isoDateDigits (ingestion_timestamp t).data = (t.year, t.month, t.day) := by
  have hv := h
  obtain ⟨hy1, hy2, hm1, hm2, hd1, hd2, hh, hmi, hs, hu⟩ := hv
  have p2 : (10 : Nat) ^ 2 = 100 := by norm_num
  have p4 : (10 : Nat) ^ 4 = 10000 := by norm_num
  have l4 : (padZeros 4 t.year).length = 4 := padZeros_length 4 _ (by omega) (by omega)
  have lmo : (padZeros 2 t.month).length = 2 := padZeros_length 2 _ (by omega) (by omega)
  rw [ingestion_timestamp_data t]
  unfold isoDateDigits
  rw [show padZeros 4 t.year ++ "-".data ++ padZeros 2 t.month ++ "-".data ++ padZeros 2 t.day
        ++ "T".data ++ padZeros 2 t.hour ++ ":".data ++ padZeros 2 t.minute
        ++ ":".data ++ padZeros 2 t.second
        ++ (if t.microsecond = 0 then [] else ".".data ++ padZeros 6 t.microsecond)
        ++ "Z".data
      = padZeros 4 t.year ++ ("-".data ++ (padZeros 2 t.month ++ ("-".data ++ (padZeros 2 t.day
        ++ ("T".data ++ padZeros 2 t.hour ++ ":".data ++ padZeros 2 t.minute
        ++ ":".data ++ padZeros 2 t.second
        ++ (if t.microsecond = 0 then [] else ".".data ++ padZeros 6 t.microsecond)
        ++ "Z".data))))) from by simp [List.append_assoc]]
  rw [show ("-".data : List Char) = '-' :: [] from rfl]
  simp only [List.cons_append, List.nil_append]
  rw [take_eq_of_len _ _ 4 l4]
  rw [drop_app_of_len _ _ 8 4 4 l4 (by norm_num)]
  rw [drop_app_of_len _ _ 5 4 1 l4 (by norm_num)]
  rw [drop_cons_of _ _ 1 0 (by norm_num), List.drop_zero]
  rw [take_eq_of_len _ _ 2 lmo]
  rw [drop_cons_of _ _ 4 3 (by norm_num)]
  rw [drop_app_of_len _ _ 3 2 1 lmo (by norm_num)]
  rw [drop_cons_of _ _ 1 0 (by norm_num), List.drop_zero]
  rw [take_eq_of_len _ _ 2 (padZeros_length 2 _ (by omega) (by omega))]
  rw [natFromDec_padZeros, natFromDec_padZeros, natFromDec_padZeros]

/-! ### Claim C1 -/

/-- C1: for every successful single-API ingestion, the stored object's key is
`filename`, of the exact form
`api_name=<name>/year=<Y>/month=<MM>/day=<DD>/data_<YYYYMMDD_HHMMSS_mmm>.json`,
where the partition's year/month/day equal the UTC calendar fields of the
instant the key is computed from, month and day are zero-padded to two
digits, and the trailing timestamp is the same instant as `YYYYMMDD_HHMMSS`
plus a three-digit millisecond suffix. -/
theorem C1_object_key_format (bucket api_name : String) (args : List (String × String))
    (cfg : ApiConfig) (r : UpstreamResponse) (data : Json) (t : Timestamp)
    (hreg : POSTMAN_APIS.lookup api_name = some cfg)
    (hst : ¬(400 ≤ r.status_code ∧ r.status_code < 600))
    (hjson : r.jsonBody = .ok data)
    (hvalid : t.valid) :
    C1Prop bucket api_name args r t := by
  obtain ⟨hy1, hy2, hm1, hm2, hd1, hd2, hh, hmi, hs, hu⟩ := hvalid
  have p2 : (10 : Nat) ^ 2 = 100 := by norm_num
  have p3 : (10 : Nat) ^ 3 = 1000 := by norm_num
  have p4 : (10 : Nat) ^ 4 = 10000 := by norm_num
  refine ⟨?_, ?_, ?_, ?_, ?_, ?_, ?_, ?_, ?_⟩
  · simp only [ingest_api, hreg, hjson, if_neg hst]
    simp
  · rw [filename_data, partition_path_data,
        timestamp_str_data t ⟨hy1, hy2, hm1, hm2, hd1, hd2, hh, hmi, hs, hu⟩]
    simp [List.append_assoc]
  · exact padZeros_length 2 _ (by omega) (by omega)
  · exact padZeros_length 2 _ (by omega) (by omega)
  · exact padZeros_length 3 _ (by omega) (by omega)
  · exact natFromDec_natToDec _
  · exact natFromDec_padZeros _ _
  · exact natFromDec_padZeros _ _
  · exact natFromDec_padZeros _ _

/-- Witness for C1 at a concrete request. -/
theorem C1_object_key_format_witness :
    POSTMAN_APIS.lookup "httpbin"
        = some { url := "https://httpbin.org/json", description := "HTTP testing service" }
    ∧ ¬(400 ≤ 200 ∧ 200 < 600)
    ∧ (Timestamp.mk 2026 10 12 3 4 5 123456).valid
    ∧ C1Prop "demo-bucket" "httpbin" []
        { status_code := 200, errText := "",
          jsonBody := .ok (Json.obj [("a", Json.num 1)]) }
        (Timestamp.mk 2026 10 12 3 4 5 123456) :=
  ⟨rfl, by decide, by decide,
   C1_object_key_format "demo-bucket" "httpbin" [] _ _ _ _ rfl (by decide) rfl (by decide)⟩

/-! ### Claim C10 -/

/-- C10: the object key's date segments, the filename's `YYYYMMDD_HHMMSS_mmm`
timestamp and the record's `metadata.ingestion_timestamp` are all derived from
the single UTC instant captured once after fetch completion, so the calendar
date encoded in the key agrees with the date of the `ingestion_timestamp`
returned in the response and stored in the record. -/
theorem C10_single_instant (bucket api_name : String) (args : List (String × String))
    (cfg : ApiConfig) (r : UpstreamResponse) (data : Json) (t : Timestamp)
    (hreg : POSTMAN_APIS.lookup api_name = some cfg)
    (hst : ¬(400 ≤ r.status_code ∧ r.status_code < 600))
    (hjson : r.jsonBody = .ok data)
    (hvalid : t.valid) :
    C10Prop bucket api_name args r data cfg t := by
  refine ⟨⟨Json.obj
      [("status", Json.str "success"),
       ("api_name", Json.str api_name),
       ("file", Json.str (filename api_name t)),
       ("gcs_path", Json.str ("gs://" ++ bucket ++ "/" ++ filename api_name t)),
       ("records_ingested", Json.num (records_ingested data)),
       ("ingestion_timestamp", Json.str (ingestion_timestamp t))], ?_, rfl, rfl⟩,
    ⟨_, rfl, rfl⟩,
    tsDateDigits_timestamp_str t hvalid,
    isoDateDigits_ingestion_timestamp t hvalid,
    partition_path_data api_name t,
    natFromDec_natToDec _, natFromDec_padZeros _ _, natFromDec_padZeros _ _⟩
  simp only [ingest_api, hreg, hjson, if_neg hst]

/-- Witness for C10 at a concrete request. -/
theorem C10_single_instant_witness :
    POSTMAN_APIS.lookup "cat-facts"
        = some { url := "https://catfact.ninja/fact", description := "Cat facts API" }
    ∧ ¬(400 ≤ 200 ∧ 200 < 600)
    ∧ (Timestamp.mk 2026 1 2 23 59 58 0).valid
    ∧ C10Prop "demo-bucket" "cat-facts" []
        { status_code := 200, errText := "", jsonBody := .ok (Json.arr [Json.num 7]) }
        (Json.arr [Json.num 7])
        { url := "https://catfact.ninja/fact", description := "Cat facts API" }
        (Timestamp.mk 2026 1 2 23 59 58 0) :=
  ⟨rfl, by decide, by decide,
   C10_single_instant "demo-bucket" "cat-facts" [] _ _ _ _ rfl (by decide) rfl (by decide)⟩

/-! ### Claim C6 -/

/-- C6: for every name not in the registry, `/ingest/<name>` returns HTTP 404
with `available_apis` equal to the full registry key set, and neither an
upstream fetch nor a storage write occurs (the result does not even depend on
the fetch outcome). -/
theorem C6_not_found (bucket api_name : String) (args : List (String × String))
    (fetch : FetchOutcome) (t : Timestamp)
    (h : POSTMAN_APIS.lookup api_name = none) :
    C6Prop bucket api_name args fetch t := by
  refine ⟨?_, rfl, ?_, ?_, ?_⟩
  · simp only [ingest_api, h]
  · simp only [ingest_api, h]
  · simp only [ingest_api, h]
  · intro fetch2 t2
    simp only [ingest_api, h]

/-- Witness for C6 at a concrete unknown name. -/
theorem C6_not_found_witness :
    POSTMAN_APIS.lookup "unknown-name" = none
    ∧ C6Prop "demo-bucket" "unknown-name" [] (.raised "unreachable")
        (Timestamp.mk 2026 10 12 3 4 5 123456) :=
  ⟨rfl, C6_not_found "demo-bucket" "unknown-name" [] _ _ rfl⟩

/-! ### Query-dictionary flattening lemmas -/

theorem toDictAux_lookup (args : List (String × String)) :
    ∀ (seen : List String) (k : String),
      (toDictAux args seen).lookup k = if k ∈ seen then none else args.lookup k := by
  induction args with
  | nil =>
    intro seen k
    simp [toDictAux]
  | cons kv rest ih =>
    intro seen k
    obtain ⟨k', v'⟩ := kv
    by_cases hk : k' ∈ seen
    · rw [show toDictAux ((k', v') :: rest) seen = toDictAux rest seen from by
            simp [toDictAux, hk]]
      rw [ih seen k]
      by_cases hks : k ∈ seen
      · simp [hks]
      · have hne : k ≠ k' := fun h => hks (h ▸ hk)
        simp only [if_neg hks]
        simp only [List.lookup]
        rw [beq_eq_false_iff_ne.mpr hne]
    · rw [show toDictAux ((k', v') :: rest) seen = (k', v') :: toDictAux rest (k' :: seen) from by
            simp [toDictAux, hk]]
      by_cases hkk : k = k'
      · subst hkk
        simp [List.lookup, hk]
      · simp only [List.lookup]
        rw [beq_eq_false_iff_ne.mpr hkk]
        rw [ih (k' :: seen) k]
        by_cases hks : k ∈ seen
        · simp [hks, List.mem_cons, hkk]
        · simp [hks, List.mem_cons, hkk]

theorem toDictAux_keys (args : List (String × String)) :
    ∀ (seen : List String),
      ((toDictAux args seen).map Prod.fst).Nodup
      ∧ (∀ k ∈ (toDictAux args seen).map Prod.fst, k ∉ seen) := by
  induction args with
  | nil =>
    intro seen
    simp [toDictAux]
  | cons kv rest ih =>
    intro seen
    obtain ⟨k', v'⟩ := kv
    by_cases hk : k' ∈ seen
    · rw [show toDictAux ((k', v') :: rest) seen = toDictAux rest seen from by
            simp [toDictAux, hk]]
      exact ih seen
    · rw [show toDictAux ((k', v') :: rest) seen = (k', v') :: toDictAux rest (k' :: seen) from by
            simp [toDictAux, hk]]
      obtain ⟨hnd, hnin⟩ := ih (k' :: seen)
      refine ⟨?_, ?_⟩
      · rw [List.map_cons]
        exact List.nodup_cons.mpr
          ⟨fun hmem => hnin k' hmem (List.mem_cons_self _ _), hnd⟩
      · intro k hkmem
        rw [List.map_cons] at hkmem
        rcases List.mem_cons.mp hkmem with h1 | h1
        · subst h1; exact hk
        · exact fun hks => hnin k h1 (List.mem_cons_of_mem _ hks)

/-! ### Claim C9 -/

/-- C9: a single-API ingestion that fails before a successful upstream fetch
(unknown name, transport error, 4xx/5xx status, JSON-decode failure) writes
nothing to the object store; a storage write happens only after a successful
fetch, and at most once per request. -/
theorem C9_no_write_before_fetch (bucket api_name : String)
    (args : List (String × String)) (fetch : FetchOutcome) (t : Timestamp) :
    C9Prop bucket api_name args fetch t := by
  rcases hl : POSTMAN_APIS.lookup api_name with _ | cfg
  · refine ⟨?_, fun _ => ?_, fun hne => absurd ?_ hne⟩ <;>
      (simp only [ingest_api, hl]; try simp)
  · cases fetch with
    | raised e =>
      refine ⟨?_, fun _ => ?_, fun hne => absurd ?_ hne⟩ <;>
        (simp only [ingest_api, hl]; try simp)
    | ok r =>
      by_cases hst : 400 ≤ r.status_code ∧ r.status_code < 600
      · refine ⟨?_, fun _ => ?_, fun hne => absurd ?_ hne⟩ <;>
          (simp only [ingest_api, hl, if_pos hst]; try simp)
      · rcases hj : r.jsonBody with e | data
        · refine ⟨?_, fun _ => ?_, fun hne => absurd ?_ hne⟩ <;>
            (simp only [ingest_api, hl, if_neg hst, hj]; try simp)
        · refine ⟨?_, ?_, fun _ => ⟨r, data, rfl, hst, hj⟩⟩
          · simp only [ingest_api, hl, if_neg hst, hj]
            simp
          · intro hf
            rcases hf with h1 | ⟨e, h2⟩ | ⟨r', h3, h4, h5⟩ | ⟨r', e, h6, h7⟩
            · rw [h1] at hl; cases hl
            · cases h2
            · cases h3; exact absurd ⟨h4, h5⟩ hst
            · cases h6; rw [h7] at hj; cases hj

/-- Witness for C9 at a concrete failing request. -/
theorem C9_no_write_before_fetch_witness :
    fails_before_storage "httpbin" (.raised "connection refused")
    ∧ C9Prop "demo-bucket" "httpbin" [] (.raised "connection refused")
        (Timestamp.mk 2026 10 12 3 4 5 123456) :=
  ⟨Or.inr (Or.inl ⟨"connection refused", rfl⟩),
   C9_no_write_before_fetch "demo-bucket" "httpbin" [] _ _⟩

/-! ### Claim C5 -/

/-- C5: when the upstream GET returns a 2xx status but the body fails to
decode as JSON, the failure is handled by the generic unexpected-error
catch-all (500, `Unexpected error: …`, no `api_url`), not by the
upstream-fetch failure branch. -/
theorem C5_decode_failure_generic (bucket api_name : String)
    (args : List (String × String)) (cfg : ApiConfig) (r : UpstreamResponse)
    (e : String) (t : Timestamp)
    (hreg : POSTMAN_APIS.lookup api_name = some cfg)
    (h2xx : 200 ≤ r.status_code ∧ r.status_code < 300)
    (hdec : r.jsonBody = .error e) :
    C5Prop bucket api_name args r e t := by
  have hst : ¬(400 ≤ r.status_code ∧ r.status_code < 600) := by omega
  refine ⟨?_, rfl, rfl, ?_⟩
  · simp only [ingest_api, hreg, if_neg hst, hdec]
  · intro cfg2 e2 h
    simp [decode_failure_body, request_exception_body] at h

/-- Witness for C5 at a concrete request. -/
theorem C5_decode_failure_generic_witness :
    POSTMAN_APIS.lookup "httpbin"
        = some { url := "https://httpbin.org/json", description := "HTTP testing service" }
    ∧ (200 ≤ 200 ∧ 200 < 300)
    ∧ C5Prop "demo-bucket" "httpbin" []
        { status_code := 200, errText := "",
          jsonBody := .error "Expecting value: line 1 column 1 (char 0)" }
        "Expecting value: line 1 column 1 (char 0)"
        (Timestamp.mk 2026 10 12 3 4 5 123456) :=
  ⟨rfl, by decide,
   C5_decode_failure_generic "demo-bucket" "httpbin" [] _ _ _ _ rfl (by decide) rfl⟩

/-! ### Claim C2 -/

/-- C2: the `records_ingested` field of the success response equals the length
of the decoded upstream body when it is a JSON array and 1 otherwise; in
particular it is 1 for the object `{"a": 1}` and 3 for the array `[1,2,3]`. -/
theorem C2_records_count :
    (∀ (bucket api_name : String) (args : List (String × String)) (cfg : ApiConfig)
        (r : UpstreamResponse) (data : Json) (t : Timestamp),
        POSTMAN_APIS.lookup api_name = some cfg →
        ¬(400 ≤ r.status_code ∧ r.status_code < 600) →
        r.jsonBody = .ok data →
        C2Prop bucket api_name args r data t)
    ∧ records_ingested (Json.obj [("a", Json.num 1)]) = 1
    ∧ records_ingested (Json.arr [Json.num 1, Json.num 2, Json.num 3]) = 3
    ∧ (∀ xs, records_ingested (Json.arr xs) = (xs.length : Int))
    ∧ (∀ data, (∀ xs, data ≠ Json.arr xs) → records_ingested data = 1) := by
  refine ⟨?_, rfl, rfl, fun xs => rfl, ?_⟩
  · intro bucket api_name args cfg r data t hreg hst hjson
    refine ⟨Json.obj
        [("status", Json.str "success"),
         ("api_name", Json.str api_name),
         ("file", Json.str (filename api_name t)),
         ("gcs_path", Json.str ("gs://" ++ bucket ++ "/" ++ filename api_name t)),
         ("records_ingested", Json.num (records_ingested data)),
         ("ingestion_timestamp", Json.str (ingestion_timestamp t))], ?_, rfl⟩
    simp only [ingest_api, hreg, hjson, if_neg hst]
  · intro data hne
    cases data with
    | arr xs => exact absurd rfl (hne xs)
    | null => rfl
    | bool b => rfl
    | num n => rfl
    | str s => rfl
    | obj kvs => rfl

/-- Witness for C2 at the array `[1,2,3]`. -/
theorem C2_records_count_witness :
    POSTMAN_APIS.lookup "httpbin"
        = some { url := "https://httpbin.org/json", description := "HTTP testing service" }
    ∧ ¬(400 ≤ 200 ∧ 200 < 600)
    ∧ C2Prop "demo-bucket" "httpbin" []
        { status_code := 200, errText := "",
          jsonBody := .ok (Json.arr [Json.num 1, Json.num 2, Json.num 3]) }
        (Json.arr [Json.num 1, Json.num 2, Json.num 3])
        (Timestamp.mk 2026 10 12 3 4 5 123456) :=
  ⟨rfl, by decide,
   C2_records_count.1 "demo-bucket" "httpbin" [] _ _ _ _ rfl (by decide) rfl⟩

/-! ### Claim C8 -/

/-- Counterexample to C8 as stated: with the repeated query key
`?a=1&a=2`, `request.args.to_dict()` keeps only the first value, so the
upstream request's parameters are `[("a","1")]`, not the client's
`[("a","1"),("a","2")]` — the query string is not forwarded verbatim. -/
theorem C8_counterexample :
    (ingest_api "demo-bucket" "httpbin" [("a", "1"), ("a", "2")]
        (.raised "connection refused") (Timestamp.mk 2026 10 12 3 4 5 123456)).requestMade
      = some { url := "https://httpbin.org/json", params := [("a", "1")], timeout := 30,
               userAgent := "GCP-API-Ingestion/1.0" }
    ∧ ([("a", "1")] : List (String × String)) ≠ [("a", "1"), ("a", "2")] :=
  ⟨rfl, by decide⟩

/-- C8 (amended): for every registered name, the upstream GET is issued to the
registry URL with the flattened query dictionary — one value per key, the
first value of each repeated key — a 30-second timeout and the fixed
user-agent `GCP-API-Ingestion/1.0`; flattening keeps keys unique and
preserves each key's first value. -/
theorem C8_amended_forwarding (bucket api_name : String)
    (args : List (String × String)) (cfg : ApiConfig) (fetch : FetchOutcome)
    (t : Timestamp)
    (hreg : POSTMAN_APIS.lookup api_name = some cfg) :
    C8Prop bucket api_name args cfg fetch t := by
  refine ⟨?_, (toDictAux_keys args []).1, fun k => by
    rw [show to_dict args = toDictAux args [] from rfl, toDictAux_lookup args [] k]
    simp⟩
  cases fetch with
  | raised e => simp only [ingest_api, hreg]
  | ok r =>
    by_cases hst : 400 ≤ r.status_code ∧ r.status_code < 600
    · simp only [ingest_api, hreg, if_pos hst]
    · rcases hj : r.jsonBody with e | data
      · simp only [ingest_api, hreg, if_neg hst, hj]
      · simp only [ingest_api, hreg, if_neg hst, hj]

/-- Witness for the amended C8 at a concrete request with a repeated key. -/
theorem C8_amended_forwarding_witness :
    POSTMAN_APIS.lookup "reqres"
        = some { url := "https://reqres.in/api/users?page=1", description := "Test REST API" }
    ∧ C8Prop "demo-bucket" "reqres" [("a", "1"), ("a", "2")]
        { url := "https://reqres.in/api/users?page=1", description := "Test REST API" }
        (.raised "connection refused") (Timestamp.mk 2026 10 12 3 4 5 123456) :=
  ⟨rfl,
   C8_amended_forwarding "demo-bucket" "reqres" [("a", "1"), ("a", "2")] _ _ _ rfl⟩

/-! ### Claim C4 -/

/-- Counterexample to C4 as stated: for the registered name `httpbin`, a 2xx
upstream response whose body is not valid JSON yields a 500 whose body is
exactly `status`/`message` with no `api_url` field, and whose message does not
contain the attempted upstream URL — so the "either 200 with `gcs_path`, or a
5xx whose error message contains the attempted URL" disjunction fails. -/
theorem C4_counterexample :
    (ingest_api "demo-bucket" "httpbin" []
        (.ok { status_code := 200, errText := "",
               jsonBody := .error "Expecting value: line 1 column 1 (char 0)" })
        (Timestamp.mk 2026 10 12 3 4 5 123456)).result
      = .responseWithCode
          (Json.obj
            [("status", Json.str "error"),
             ("message", Json.str "Unexpected error: Expecting value: line 1 column 1 (char 0)")])
          500
    ∧ containsSub "Unexpected error: Expecting value: line 1 column 1 (char 0)".data
        "https://httpbin.org/json".data = false
    ∧ jget (Json.obj
            [("status", Json.str "error"),
             ("message", Json.str "Unexpected error: Expecting value: line 1 column 1 (char 0)")])
        "api_url" = none :=
  ⟨rfl, by decide, rfl⟩

/-- C4 (amended): for every registered name the handler returns either a bare
success response whose `gcs_path` begins `gs://<bucket>/api_name=<name>/`, or
a 500; on any transport-level or 4xx/5xx-status upstream failure the 500 body
surfaces the upstream error text (`message`) and the attempted URL
(`api_url`), and the model issues at most the single fetch it was given — no
retry. -/
theorem C4_amended_response_shape (bucket api_name : String)
    (args : List (String × String)) (cfg : ApiConfig) (fetch : FetchOutcome)
    (t : Timestamp)
    (hreg : POSTMAN_APIS.lookup api_name = some cfg) :
    C4Prop bucket api_name args cfg fetch t := by
  cases fetch with
  | raised e =>
    refine Or.inr ⟨request_exception_body api_name e cfg, ?_, ?_, ?_⟩
    · simp only [ingest_api, hreg]
    · intro e' he
      cases he
      exact ⟨rfl, rfl⟩
    · intro r' hr
      cases hr
  | ok r =>
    by_cases hst : 400 ≤ r.status_code ∧ r.status_code < 600
    · refine Or.inr ⟨request_exception_body api_name r.errText cfg, ?_, ?_, ?_⟩
      · simp only [ingest_api, hreg, if_pos hst]
      · intro e' he
        cases he
      · intro r' hr h4 h5
        cases hr
        exact ⟨rfl, rfl⟩
    · rcases hj : r.jsonBody with e | data
      · refine Or.inr ⟨decode_failure_body e, ?_, ?_, ?_⟩
        · simp only [ingest_api, hreg, if_neg hst, hj]
        · intro e' he
          cases he
        · intro r' hr h4 h5
          cases hr
          exact absurd ⟨h4, h5⟩ hst
      · refine Or.inl ⟨Json.obj
          [("status", Json.str "success"),
           ("api_name", Json.str api_name),
           ("file", Json.str (filename api_name t)),
           ("gcs_path", Json.str ("gs://" ++ bucket ++ "/" ++ filename api_name t)),
           ("records_ingested", Json.num (records_ingested data)),
           ("ingestion_timestamp", Json.str (ingestion_timestamp t))],
          "year=".data ++ natToDec t.year ++ "/month=".data ++ padZeros 2 t.month
            ++ "/day=".data ++ padZeros 2 t.day ++ "/data_".data
            ++ (timestamp_str t).data ++ ".json".data, ?_, ?_⟩
        · simp only [ingest_api, hreg, if_neg hst, hj]
        · have hstr : ("gs://" ++ bucket ++ "/" ++ filename api_name t : String)
              = String.mk (("gs://" ++ bucket ++ "/api_name=" ++ api_name ++ "/").data
                  ++ ("year=".data ++ natToDec t.year ++ "/month=".data ++ padZeros 2 t.month
                    ++ "/day=".data ++ padZeros 2 t.day ++ "/data_".data
                    ++ (timestamp_str t).data ++ ".json".data)) := by
            apply str_ext
            rw [data_mk]
            simp [data_append, filename_data, partition_path_data, List.append_assoc]
          rw [show jget (Json.obj
              [("status", Json.str "success"),
               ("api_name", Json.str api_name),
               ("file", Json.str (filename api_name t)),
               ("gcs_path", Json.str ("gs://" ++ bucket ++ "/" ++ filename api_name t)),
               ("records_ingested", Json.num (records_ingested data)),
               ("ingestion_timestamp", Json.str (ingestion_timestamp t))]) "gcs_path"
            = some (Json.str ("gs://" ++ bucket ++ "/" ++ filename api_name t)) from rfl]
          rw [hstr]

/-- Witness for the amended C4 on an upstream 404. -/
theorem C4_amended_response_shape_witness :
    POSTMAN_APIS.lookup "dog-api"
        = some { url := "https://dog.ceo/api/breeds/list/all", description := "Dog breeds API" }
    ∧ C4Prop "demo-bucket" "dog-api" []
        { url := "https://dog.ceo/api/breeds/list/all", description := "Dog breeds API" }
        (.ok { status_code := 404,
               errText := "404 Client Error: Not Found for url: https://dog.ceo/api/breeds/list/all",
               jsonBody := .error "Expecting value: line 1 column 1 (char 0)" })
        (Timestamp.mk 2026 10 12 3 4 5 123456) :=
  ⟨rfl, C4_amended_response_shape "demo-bucket" "dog-api" [] _ _ _ rfl⟩

/-! ### Claim C3 -/

/-- C3 is contradicted by the code: in `/ingest-all`, a successful
`ingest_api` call returns a bare `Response`, and `result[1]` on it raises
`TypeError`, which the per-item `except Exception` arm records as an error
entry.  Evaluating the bulk handler when every upstream fetch succeeds (each
returning HTTP 200 with body `{"a": 1}`): the results list still has exactly
one entry per registry key in registry order, but every entry — including the
five successful ingestions, whose storage writes did happen — is tagged
`error` with the `TypeError` text, never `success` with the success
payload. -/
theorem C3_bulk_tags_success_as_error :
    ingest_all_apis "demo-bucket" []
        (fun _ => .ok { status_code := 200, errText := "",
                        jsonBody := .ok (Json.obj [("a", Json.num 1)]) })
        (fun _ => Timestamp.mk 2026 10 12 3 4 5 123456)
      = Json.obj
          [("status", Json.str "completed"),
           ("message", Json.str "Bulk ingestion completed"),
           ("results", Json.arr
              [Json.obj [("api_name", Json.str "httpbin"),
                         ("status", Json.str "error"),
                         ("error", Json.str response_not_subscriptable)],
               Json.obj [("api_name", Json.str "jsonplaceholder"),
                         ("status", Json.str "error"),
                         ("error", Json.str response_not_subscriptable)],
               Json.obj [("api_name", Json.str "reqres"),
                         ("status", Json.str "error"),
                         ("error", Json.str response_not_subscriptable)],
               Json.obj [("api_name", Json.str "cat-facts"),
                         ("status", Json.str "error"),
                         ("error", Json.str response_not_subscriptable)],
               Json.obj [("api_name", Json.str "dog-api"),
                         ("status", Json.str "error"),
                         ("error", Json.str response_not_subscriptable)]])] := rfl

/-! ### Whitespace-skipping lemmas -/

theorem skipWs_cons_not_ws (c : Char) (cs : List Char) (h : isWsJson c = false) :
    skipWs (c :: cs) = c :: cs := by
  simp [skipWs, List.dropWhile_cons, h]

theorem skipWs_append_ws (ws cs : List Char) (h : ∀ c ∈ ws, isWsJson c = true) :
    skipWs (ws ++ cs) = skipWs cs := by
  induction ws with
  | nil => rfl
  | cons a ws ih =>
    rw [List.cons_append]
    show List.dropWhile isWsJson (a :: (ws ++ cs)) = _
    rw [List.dropWhile_cons, if_pos (h a (List.mem_cons_self _ _))]
    exact ih fun c hc => h c (List.mem_cons_of_mem _ hc)

theorem indentSp_ws (d : Nat) : ∀ c ∈ indentSp d, isWsJson c = true := by
  intro c hc
  have := List.eq_of_mem_replicate hc
  subst this
  decide

theorem parseValue_ws (fuel : Nat) (ws cs : List Char)
    (h : ∀ c ∈ ws, isWsJson c = true) :
    parseValue fuel (ws ++ cs) = parseValue fuel cs := by
  cases fuel with
  | zero => rfl
  | succ fuel => simp only [parseValue, skipWs_append_ws ws cs h]

/-! ### Digit-run lemmas -/

theorem digit_not_ws {c : Char} (h : c.isDigit = true) : isWsJson c = false := by
  by_contra hh
  have h2 : isWsJson c = true := by
    cases hx : isWsJson c
    · exact absurd hx hh
    · rfl
  simp only [isWsJson, Bool.or_eq_true, beq_iff_eq] at h2
  rcases h2 with ((h1 | h1) | h1) | h1 <;> (subst h1; exact absurd h (by decide))

theorem digit_ne {c : Char} (h : c.isDigit = true) (d : Char) (hd : d.isDigit = false) :
    c ≠ d := by
  intro he
  subst he
  rw [h] at hd
  cases hd

theorem takeWhile_digits_append (ds rest : List Char)
    (hds : ∀ c ∈ ds, c.isDigit = true) (hrest : DigitGuard rest) :
    (ds ++ rest).takeWhile Char.isDigit = ds
    ∧ (ds ++ rest).dropWhile Char.isDigit = rest := by
  induction ds with
  | nil =>
    simp only [List.nil_append]
    cases rest with
    | nil => exact ⟨rfl, rfl⟩
    | cons c cs =>
      have hc : c.isDigit = false := hrest
      rw [List.takeWhile_cons, List.dropWhile_cons]
      simp [hc]
  | cons d ds ih =>
    have hd : d.isDigit = true := hds d (List.mem_cons_self _ _)
    obtain ⟨ht, hdr⟩ := ih fun c hc => hds c (List.mem_cons_of_mem _ hc)
    rw [List.cons_append, List.takeWhile_cons, List.dropWhile_cons]
    simp [hd, ht, hdr]

/-! ### String-escape round trip -/

theorem parseStrBody_cons (c : Char) (rest : List Char) :
    parseStrBody (c :: rest)
      = if c = '"' then some ([], rest)
        else
          if c = '\\' then
            match rest with
            | [] => none
            | e :: rest' =>
              if e = 'u' then
                match rest' with
                | h1 :: h2 :: h3 :: h4 :: rest'' =>
                  (match decodeHex4 h1 h2 h3 h4 with
                   | some code =>
                     (match parseStrBody rest'' with
                      | some (s, r) => some (Char.ofNat code :: s, r)
                      | none => none)
                   | none => none)
                | _ => none
              else
                match unescapeChar e with
                | some c' =>
                  (match parseStrBody rest' with
                   | some (s, r) => some (c' :: s, r)
                   | none => none)
                | none => none
          else
            match parseStrBody rest with
            | some (s, r) => some (c :: s, r)
            | none => none := by
  rw [parseStrBody.eq_def]

theorem hexDigit_roundtrip : ∀ m < 16, decodeHexDigit (Nat.digitChar m) = some m := by
  decide

theorem parseStrBody_escape (s : List Char) : ∀ rest : List Char,
    parseStrBody (escapeStr s ++ '"' :: rest) = some (s, rest) := by
  induction s with
  | nil =>
    intro rest
    simp [escapeStr, parseStrBody_cons]
  | cons c s ih =>
    intro rest
    show parseStrBody ((escapeChar c ++ escapeStr s) ++ '"' :: rest) = _
    rw [List.append_assoc]
    by_cases h1 : c = '\\'
    · subst h1
      simp [escapeChar, parseStrBody_cons, unescapeChar, ih]
    by_cases h2 : c = '"'
    · subst h2
      simp [escapeChar, parseStrBody_cons, unescapeChar, ih]
    by_cases h3 : c = Char.ofNat 8
    · subst h3
      simp [escapeChar, parseStrBody_cons, unescapeChar, ih]
    by_cases h4 : c = Char.ofNat 9
    · subst h4
      simp [escapeChar, parseStrBody_cons, unescapeChar, ih]
    by_cases h5 : c = Char.ofNat 10
    · subst h5
      simp [escapeChar, parseStrBody_cons, unescapeChar, ih]
    by_cases h6 : c = Char.ofNat 12
    · subst h6
      simp [escapeChar, parseStrBody_cons, unescapeChar, ih]
    by_cases h7 : c = Char.ofNat 13
    · subst h7
      simp [escapeChar, parseStrBody_cons, unescapeChar, ih]
    by_cases h8 : c.toNat < 32
    · have hesc : escapeChar c
          = ['\\', 'u', '0', '0', Nat.digitChar (c.toNat / 16), Nat.digitChar (c.toNat % 16)] := by
        simp [escapeChar, h1, h2, h3, h4, h5, h6, h7, h8]
      rw [hesc]
      have hd1 : decodeHexDigit (Nat.digitChar (c.toNat / 16)) = some (c.toNat / 16) :=
        hexDigit_roundtrip _ (by omega)
      have hd2 : decodeHexDigit (Nat.digitChar (c.toNat % 16)) = some (c.toNat % 16) :=
        hexDigit_roundtrip _ (by omega)
      simp [parseStrBody_cons, decodeHex4, hd1, hd2, ih,
        show decodeHexDigit '0' = some 0 from by decide]
      rw [show c.toNat / 16 * 16 + c.toNat % 16 = c.toNat from by omega, Char.ofNat_toNat]
    · have hesc : escapeChar c = [c] := by
        simp [escapeChar, h1, h2, h3, h4, h5, h6, h7, h8]
      rw [hesc]
      simp [parseStrBody_cons, h1, h2, ih]

/-! ### Serializer shape lemmas -/

theorem serValue_head (d : Nat) (j : Json) :
    ∃ c cs, serValue d j = c :: cs ∧ isWsJson c = false ∧ c ≠ ']' := by
  cases j with
  | null => exact ⟨'n', ['u', 'l', 'l'], by simp [serValue], by decide, by decide⟩
  | bool b =>
    cases b with
    | true => exact ⟨'t', ['r', 'u', 'e'], by simp [serValue], by decide, by decide⟩
    | false => exact ⟨'f', ['a', 'l', 's', 'e'], by simp [serValue], by decide, by decide⟩
  | num i =>
    by_cases hi : i < 0
    · exact ⟨'-', natToDec i.natAbs, by simp [serValue, intDec, hi], by decide, by decide⟩
    · cases hnd : natToDec i.natAbs with
      | nil => exact absurd hnd (natToDec_ne_nil _)
      | cons dc ds =>
        have hd : dc.isDigit = true :=
          natToDec_digits _ dc (by rw [hnd]; exact List.mem_cons_self _ _)
        exact ⟨dc, ds, by simp [serValue, intDec, hi, hnd],
          digit_not_ws hd, digit_ne hd ']' (by decide)⟩
  | str s =>
    exact ⟨'"', escapeStr s.data ++ ['"'], by simp [serValue], by decide, by decide⟩
  | arr xs =>
    cases xs with
    | nil => exact ⟨'[', [']'], by simp [serValue], by decide, by decide⟩
    | cons x xs =>
      exact ⟨'[', '\n' :: (indentSp (d + 1) ++ serValue (d + 1) x ++ serArrRest (d + 1) xs
        ++ '\n' :: (indentSp d ++ [']'])), by simp [serValue], by decide, by decide⟩
  | obj kvs =>
    cases kvs with
    | nil => exact ⟨'\x7b', ['\x7d'], by simp [serValue], by decide, by decide⟩
    | cons kv kvs =>
      obtain ⟨k, v⟩ := kv
      exact ⟨'\x7b', '\n' :: (indentSp (d + 1) ++ ('"' :: (escapeStr k.data
        ++ '"' :: ':' :: ' ' :: serValue (d + 1) v)) ++ serObjRest (d + 1) kvs
        ++ '\n' :: (indentSp d ++ ['\x7d'])), by simp [serValue], by decide, by decide⟩

/-! ### Fuel bounds -/

theorem jsizeL_le_serArrRest (d : Nat) (xs : List Json)
    (H : ∀ x ∈ xs, ∀ d2, jsize x ≤ (serValue d2 x).length) :
    jsizeL xs ≤ (serArrRest d xs).length := by
  induction xs with
  | nil => simp [jsizeL, serArrRest]
  | cons x xs ih =>
    have hx := H x (List.mem_cons_self _ _) d
    have hxs := ih fun y hy => H y (List.mem_cons_of_mem _ hy)
    simp only [jsizeL, serArrRest, List.length_cons, List.length_append]
    omega

theorem jsizeO_le_serObjRest (d : Nat) (kvs : List (String × Json))
    (H : ∀ kv ∈ kvs, ∀ d2, jsize kv.2 ≤ (serValue d2 kv.2).length) :
    jsizeO kvs ≤ (serObjRest d kvs).length := by
  induction kvs with
  | nil => simp [jsizeO, serObjRest]
  | cons kv kvs ih =>
    obtain ⟨k, v⟩ := kv
    have hv : jsize v ≤ (serValue d v).length := H (k, v) (List.mem_cons_self _ _) d
    have hkvs := ih fun y hy => H y (List.mem_cons_of_mem _ hy)
    simp only [jsizeO, serObjRest, List.length_cons, List.length_append]
    omega

theorem jsize_le_serValue_length :
    ∀ n (j : Json), sizeOf j ≤ n → ∀ d, jsize j ≤ (serValue d j).length := by
  intro n
  induction n using Nat.strong_induction_on with
  | _ n ih =>
    intro j hj d
    cases j with
    | null => simp [jsize, serValue]
    | bool b => cases b <;> simp [jsize, serValue]
    | num i =>
      have h1 : 1 ≤ (natToDec i.natAbs).length := by
        cases hnd : natToDec i.natAbs with
        | nil => exact absurd hnd (natToDec_ne_nil _)
        | cons a l => simp
      by_cases hi : i < 0 <;> (simp [jsize, serValue, intDec, hi]; try omega)
    | str s => simp [jsize, serValue]
    | arr xs =>
      cases xs with
      | nil => simp [jsize, jsizeL, serValue]
      | cons x xs =>
        have hmem : ∀ y ∈ x :: xs, ∀ d2, jsize y ≤ (serValue d2 y).length := by
          intro y hy d2
          have h1 := List.sizeOf_lt_of_mem hy
          have h2 : sizeOf (Json.arr (x :: xs)) = 1 + sizeOf (x :: xs) := by simp
          exact ih (sizeOf y) (by omega) y le_rfl d2
        have hhead := hmem x (List.mem_cons_self _ _) (d + 1)
        have htail := jsizeL_le_serArrRest (d + 1) xs
          fun y hy => hmem y (List.mem_cons_of_mem _ hy)
        simp only [jsize, jsizeL, serValue, List.length_cons, List.length_append]
        omega
    | obj kvs =>
      cases kvs with
      | nil => simp [jsize, jsizeO, serValue]
      | cons kv kvs =>
        obtain ⟨k, v⟩ := kv
        have hmem : ∀ y ∈ (k, v) :: kvs, ∀ d2, jsize y.2 ≤ (serValue d2 y.2).length := by
          intro y hy d2
          have h1 := List.sizeOf_lt_of_mem hy
          have h2 : sizeOf (Json.obj ((k, v) :: kvs)) = 1 + sizeOf ((k, v) :: kvs) := by simp
          have h3 : sizeOf y.2 ≤ sizeOf y := by
            obtain ⟨a, b⟩ := y
            simp
          exact ih (sizeOf y.2) (by omega) y.2 le_rfl d2
        have hhead : jsize v ≤ (serValue (d + 1) v).length :=
          hmem (k, v) (List.mem_cons_self _ _) (d + 1)
        have htail := jsizeO_le_serObjRest (d + 1) kvs
          fun y hy => hmem y (List.mem_cons_of_mem _ hy)
        simp only [jsize, jsizeO, serValue, List.length_cons, List.length_append]
        omega

/-! ### JSON round trip -/

theorem newline_indent_ws (d : Nat) : ∀ c ∈ '\n' :: indentSp d, isWsJson c = true := by
  intro c hc
  rcases List.mem_cons.mp hc with h | h
  · subst h; decide
  · exact indentSp_ws d c h

theorem parseArrItems_serArrRest (d : Nat) (xs : List Json)
    (H : ∀ x ∈ xs, ∀ fuel, jsize x ≤ fuel → ∀ d2 rest, DigitGuard rest →
         parseValue fuel (serValue d2 x ++ rest) = some (x, rest)) :
    ∀ fuel, jsizeL xs + 1 ≤ fuel → ∀ acc rest,
      parseArrItems fuel acc
          (serArrRest (d + 1) xs ++ '\n' :: (indentSp d ++ ']' :: rest))
        = some (.arr (acc ++ xs), rest) := by
  induction xs with
  | nil =>
    intro fuel hf acc rest
    obtain ⟨f, rfl⟩ : ∃ f, fuel = f + 1 := ⟨fuel - 1, by omega⟩
    have hskip : skipWs (serArrRest (d + 1) ([] : List Json)
          ++ '\n' :: (indentSp d ++ ']' :: rest)) = ']' :: rest := by
      simp only [serArrRest, List.nil_append]
      rw [show ('\n' :: (indentSp d ++ ']' :: rest))
            = ('\n' :: indentSp d) ++ (']' :: rest) from by simp]
      rw [skipWs_append_ws _ _ (newline_indent_ws d)]
      exact skipWs_cons_not_ws _ _ (by decide)
    simp only [parseArrItems, hskip]
    simp
  | cons x xs ih =>
    intro fuel hf acc rest
    obtain ⟨f, rfl⟩ : ∃ f, fuel = f + 1 := ⟨fuel - 1, by omega⟩
    simp only [jsizeL] at hf
    have hguard : DigitGuard (serArrRest (d + 1) xs ++ '\n' :: (indentSp d ++ ']' :: rest)) := by
      cases xs with
      | nil =>
        simp only [serArrRest, List.nil_append]
        show ('\n').isDigit = false
        decide
      | cons y ys =>
        simp only [serArrRest, List.cons_append]
        show (',').isDigit = false
        decide
    simp only [serArrRest, List.cons_append]
    simp only [parseArrItems, skipWs_cons_not_ws _ _ (by decide : isWsJson ',' = false)]
    rw [show ('\n' :: ((indentSp (d + 1) ++ serValue (d + 1) x ++ serArrRest (d + 1) xs)
          ++ '\n' :: (indentSp d ++ ']' :: rest)))
        = ('\n' :: indentSp (d + 1)) ++ (serValue (d + 1) x
            ++ (serArrRest (d + 1) xs ++ '\n' :: (indentSp d ++ ']' :: rest))) from by
          simp [List.append_assoc]]
    rw [parseValue_ws f _ _ (newline_indent_ws (d + 1))]
    rw [H x (List.mem_cons_self _ _) f (by omega) (d + 1) _ hguard]
    show parseArrItems f (acc ++ [x])
        (serArrRest (d + 1) xs ++ '\n' :: (indentSp d ++ ']' :: rest))
      = some (Json.arr (acc ++ x :: xs), rest)
    rw [ih (fun y hy => H y (List.mem_cons_of_mem _ hy)) f (by omega) (acc ++ [x]) rest]
    simp

theorem parseObjItems_serObjRest (d : Nat) (kvs : List (String × Json))
    (H : ∀ kv ∈ kvs, ∀ fuel, jsize kv.2 ≤ fuel → ∀ d2 rest, DigitGuard rest →
         parseValue fuel (serValue d2 kv.2 ++ rest) = some (kv.2, rest)) :
    ∀ fuel, jsizeO kvs + 1 ≤ fuel → ∀ acc rest,
      parseObjItems fuel acc
          (serObjRest (d + 1) kvs ++ '\n' :: (indentSp d ++ '\x7d' :: rest))
        = some (.obj (acc ++ kvs), rest) := by
  induction kvs with
  | nil =>
    intro fuel hf acc rest
    obtain ⟨f, rfl⟩ : ∃ f, fuel = f + 1 := ⟨fuel - 1, by omega⟩
    have hskip : skipWs (serObjRest (d + 1) ([] : List (String × Json))
          ++ '\n' :: (indentSp d ++ '\x7d' :: rest)) = '\x7d' :: rest := by
      simp only [serObjRest, List.nil_append]
      rw [show ('\n' :: (indentSp d ++ '\x7d' :: rest))
            = ('\n' :: indentSp d) ++ ('\x7d' :: rest) from by simp]
      rw [skipWs_append_ws _ _ (newline_indent_ws d)]
      exact skipWs_cons_not_ws _ _ (by decide)
    simp only [parseObjItems, hskip]
    simp
  | cons kv kvs ih =>
    obtain ⟨k, v⟩ := kv
    intro fuel hf acc rest
    obtain ⟨f, rfl⟩ : ∃ f, fuel = f + 1 := ⟨fuel - 1, by omega⟩
    simp only [jsizeO] at hf
    have hguard : DigitGuard (serObjRest (d + 1) kvs
        ++ '\n' :: (indentSp d ++ '\x7d' :: rest)) := by
      cases kvs with
      | nil =>
        simp only [serObjRest, List.nil_append]
        show ('\n').isDigit = false
        decide
      | cons y ys =>
        obtain ⟨k2, v2⟩ := y
        simp only [serObjRest, List.cons_append]
        show (',').isDigit = false
        decide
    simp only [serObjRest, List.cons_append]
    simp only [parseObjItems, skipWs_cons_not_ws _ _ (by decide : isWsJson ',' = false)]
    rw [show ('\n' :: ((indentSp (d + 1) ++ ('"' :: (escapeStr k.data
            ++ '"' :: ':' :: ' ' :: serValue (d + 1) v)) ++ serObjRest (d + 1) kvs)
          ++ '\n' :: (indentSp d ++ '\x7d' :: rest)))
        = ('\n' :: indentSp (d + 1)) ++ ('"' :: (escapeStr k.data
            ++ '"' :: (':' :: ' ' :: (serValue (d + 1) v
              ++ (serObjRest (d + 1) kvs
                ++ '\n' :: (indentSp d ++ '\x7d' :: rest)))))) from by
          simp [List.append_assoc]]
    rw [skipWs_append_ws _ _ (newline_indent_ws (d + 1))]
    rw [skipWs_cons_not_ws _ _ (by decide : isWsJson '"' = false)]
    show (match parseStrBody (escapeStr k.data
          ++ '"' :: ':' :: ' ' :: (serValue (d + 1) v
            ++ (serObjRest (d + 1) kvs ++ '\n' :: (indentSp d ++ '\x7d' :: rest)))) with
      | some (k2, r2) =>
        (match skipWs r2 with
         | ':' :: r3 =>
           (match parseValue f r3 with
            | some (v2, r4) => parseObjItems f (acc ++ [(String.mk k2, v2)]) r4
            | none => none)
         | _ => none)
      | none => none)
      = some (Json.obj (acc ++ (k, v) :: kvs), rest)
    rw [parseStrBody_escape k.data]
    show (match skipWs (':' :: ' ' :: (serValue (d + 1) v
          ++ (serObjRest (d + 1) kvs ++ '\n' :: (indentSp d ++ '\x7d' :: rest)))) with
      | ':' :: r3 =>
        (match parseValue f r3 with
         | some (v2, r4) => parseObjItems f (acc ++ [(String.mk k.data, v2)]) r4
         | none => none)
      | _ => none)
      = some (Json.obj (acc ++ (k, v) :: kvs), rest)
    rw [skipWs_cons_not_ws _ _ (by decide : isWsJson ':' = false)]
    show (match parseValue f (' ' :: (serValue (d + 1) v
          ++ (serObjRest (d + 1) kvs ++ '\n' :: (indentSp d ++ '\x7d' :: rest)))) with
      | some (v2, r4) => parseObjItems f (acc ++ [(String.mk k.data, v2)]) r4
      | none => none)
      = some (Json.obj (acc ++ (k, v) :: kvs), rest)
    rw [show (' ' :: (serValue (d + 1) v
          ++ (serObjRest (d + 1) kvs ++ '\n' :: (indentSp d ++ '\x7d' :: rest))))
        = [' '] ++ (serValue (d + 1) v
          ++ (serObjRest (d + 1) kvs ++ '\n' :: (indentSp d ++ '\x7d' :: rest))) from rfl]
    rw [parseValue_ws f [' '] _ (by intro c hc; simp at hc; subst hc; decide)]
    rw [H (k, v) (List.mem_cons_self _ _) f ((by omega : jsize v ≤ f)) (d + 1) _ hguard]
    show parseObjItems f (acc ++ [(String.mk k.data, v)])
        (serObjRest (d + 1) kvs ++ '\n' :: (indentSp d ++ '\x7d' :: rest))
      = some (Json.obj (acc ++ (k, v) :: kvs), rest)
    rw [ih (fun y hy => H y (List.mem_cons_of_mem _ hy)) f (by omega)
          (acc ++ [(String.mk k.data, v)]) rest]
    simp

theorem jsize_pos (j : Json) : 1 ≤ jsize j := by
  cases j <;> simp [jsize]

theorem digitGuard_serArrTail (d : Nat) (xs : List Json) (tail : List Char) :
    DigitGuard (serArrRest d xs ++ '\n' :: tail) := by
  cases xs with
  | nil =>
    simp only [serArrRest, List.nil_append]
    show ('\n').isDigit = false
    decide
  | cons y ys =>
    simp only [serArrRest, List.cons_append]
    show (',').isDigit = false
    decide

theorem digitGuard_serObjTail (d : Nat) (kvs : List (String × Json)) (tail : List Char) :
    DigitGuard (serObjRest d kvs ++ '\n' :: tail) := by
  cases kvs with
  | nil =>
    simp only [serObjRest, List.nil_append]
    show ('\n').isDigit = false
    decide
  | cons y ys =>
    obtain ⟨k2, v2⟩ := y
    simp only [serObjRest, List.cons_append]
    show (',').isDigit = false
    decide

theorem parseValue_serValue :
    ∀ n (j : Json), sizeOf j ≤ n →
      ∀ fuel, jsize j ≤ fuel → ∀ d rest, DigitGuard rest →
        parseValue fuel (serValue d j ++ rest) = some (j, rest) := by
  intro n
  induction n using Nat.strong_induction_on with
  | _ n ih =>
    intro j hj fuel hfuel d rest hrest
    obtain ⟨f, rfl⟩ : ∃ f, fuel = f + 1 :=
      ⟨fuel - 1, by have := jsize_pos j; omega⟩
    cases j with
    | null =>
      rw [show serValue d Json.null = "null".data from by simp [serValue]]
      show parseValue (f + 1) ('n' :: 'u' :: 'l' :: 'l' :: rest) = some (Json.null, rest)
      simp [parseValue, skipWs_cons_not_ws _ _ (by decide : isWsJson 'n' = false)]
    | bool b =>
      cases b with
      | true =>
        rw [show serValue d (Json.bool true) = "true".data from by simp [serValue]]
        show parseValue (f + 1) ('t' :: 'r' :: 'u' :: 'e' :: rest)
          = some (Json.bool true, rest)
        simp [parseValue, skipWs_cons_not_ws _ _ (by decide : isWsJson 't' = false)]
      | false =>
        rw [show serValue d (Json.bool false) = "false".data from by simp [serValue]]
        show parseValue (f + 1) ('f' :: 'a' :: 'l' :: 's' :: 'e' :: rest)
          = some (Json.bool false, rest)
        simp [parseValue, skipWs_cons_not_ws _ _ (by decide : isWsJson 'f' = false)]
    | num i =>
      by_cases hi : i < 0
      · rw [show serValue d (Json.num i) = '-' :: natToDec i.natAbs from by
            simp [serValue, intDec, hi]]
        show parseValue (f + 1) ('-' :: (natToDec i.natAbs ++ rest)) = some (Json.num i, rest)
        obtain ⟨ht, hdr⟩ :=
          takeWhile_digits_append (natToDec i.natAbs) rest (natToDec_digits _) hrest
        simp [parseValue, skipWs_cons_not_ws _ _ (by decide : isWsJson '-' = false),
          ht, hdr, natToDec_ne_nil, natFromDec_natToDec]
        rw [abs_of_neg hi, neg_neg]
      · obtain ⟨dc, ds, hnd⟩ : ∃ dc ds, natToDec i.natAbs = dc :: ds := by
          cases hx : natToDec i.natAbs with
          | nil => exact absurd hx (natToDec_ne_nil _)
          | cons a l => exact ⟨a, l, rfl⟩
        have hdigits : ∀ c ∈ dc :: ds, c.isDigit = true := by
          rw [← hnd]; exact natToDec_digits _
        have hd : dc.isDigit = true := hdigits dc (List.mem_cons_self _ _)
        rw [show serValue d (Json.num i) = natToDec i.natAbs from by
            simp [serValue, intDec, hi], hnd]
        show parseValue (f + 1) (dc :: (ds ++ rest)) = some (Json.num i, rest)
        obtain ⟨ht, hdr⟩ := takeWhile_digits_append (dc :: ds) rest hdigits hrest
        have ht2 : (dc :: (ds ++ rest)).takeWhile Char.isDigit = dc :: ds := by
          simpa using ht
        have hdr2 : (dc :: (ds ++ rest)).dropWhile Char.isDigit = rest := by
          simpa using hdr
        simp [parseValue, skipWs_cons_not_ws _ _ (digit_not_ws hd),
          digit_ne hd 'n' (by decide), digit_ne hd 't' (by decide),
          digit_ne hd 'f' (by decide), digit_ne hd '"' (by decide),
          digit_ne hd '[' (by decide), digit_ne hd '\x7b' (by decide),
          digit_ne hd '-' (by decide), hd, ht2, hdr2]
        rw [← hnd, natFromDec_natToDec]
        exact Int.natAbs_of_nonneg (by omega)
    | str s =>
      rw [show serValue d (Json.str s) ++ rest
            = '"' :: (escapeStr s.data ++ '"' :: rest) from by
          simp [serValue, List.append_assoc]]
      simp only [parseValue, skipWs_cons_not_ws _ _ (by decide : isWsJson '"' = false)]
      simp [parseStrBody_escape s.data]
    | arr xs =>
      cases xs with
      | nil =>
        rw [show serValue d (Json.arr []) = "[]".data from by simp [serValue]]
        show parseValue (f + 1) ('[' :: ']' :: rest) = some (Json.arr [], rest)
        simp [parseValue, skipWs_cons_not_ws _ _ (by decide : isWsJson '[' = false),
          skipWs_cons_not_ws _ _ (by decide : isWsJson ']' = false)]
      | cons x xs =>
        simp only [jsize, jsizeL] at hfuel
        have hx : sizeOf x < n := by
          have h1 := List.sizeOf_lt_of_mem (List.mem_cons_self x xs)
          have h2 : sizeOf (Json.arr (x :: xs)) = 1 + sizeOf (x :: xs) := by simp
          omega
        have hmem : ∀ y ∈ x :: xs, ∀ fuel2, jsize y ≤ fuel2 →
            ∀ d2 rest2, DigitGuard rest2 →
              parseValue fuel2 (serValue d2 y ++ rest2) = some (y, rest2) := by
          intro y hy fuel2 hf2 d2 rest2 hr2
          have h1 := List.sizeOf_lt_of_mem hy
          have h2 : sizeOf (Json.arr (x :: xs)) = 1 + sizeOf (x :: xs) := by simp
          exact ih (sizeOf y) (by omega) y le_rfl fuel2 hf2 d2 rest2 hr2
        rw [show serValue d (Json.arr (x :: xs)) ++ rest
              = '[' :: (('\n' :: indentSp (d + 1)) ++ (serValue (d + 1) x
                  ++ (serArrRest (d + 1) xs
                    ++ '\n' :: (indentSp d ++ ']' :: rest)))) from by
            simp [serValue, List.append_assoc]]
        simp only [parseValue, skipWs_cons_not_ws _ _ (by decide : isWsJson '[' = false)]
        obtain ⟨c0, cs0, hser, hws0, hne0⟩ := serValue_head (d + 1) x
        have hskip2 : skipWs (('\n' :: indentSp (d + 1)) ++ (serValue (d + 1) x
              ++ (serArrRest (d + 1) xs ++ '\n' :: (indentSp d ++ ']' :: rest))))
            = c0 :: (cs0 ++ (serArrRest (d + 1) xs
                ++ '\n' :: (indentSp d ++ ']' :: rest))) := by
          rw [skipWs_append_ws _ _ (newline_indent_ws (d + 1)), hser, List.cons_append,
            skipWs_cons_not_ws _ _ hws0]
        rw [hskip2]
        have hguard := digitGuard_serArrTail (d + 1) xs (indentSp d ++ ']' :: rest)
        have hxrt := hmem x (List.mem_cons_self _ _) f (by omega) (d + 1)
          (serArrRest (d + 1) xs ++ '\n' :: (indentSp d ++ ']' :: rest)) hguard
        show (match c0 :: (cs0 ++ (serArrRest (d + 1) xs
              ++ '\n' :: (indentSp d ++ ']' :: rest))) with
          | ']' :: r => some (Json.arr [], r)
          | _ => (match parseValue f ('\n' :: indentSp (d + 1)
                    ++ (serValue (d + 1) x ++ (serArrRest (d + 1) xs
                      ++ '\n' :: (indentSp d ++ ']' :: rest)))) with
                  | some (j, r) => parseArrItems f [j] r
                  | none => none))
          = some (Json.arr (x :: xs), rest)
        rw [show ('\n' :: indentSp (d + 1)
              ++ (serValue (d + 1) x ++ (serArrRest (d + 1) xs
                ++ '\n' :: (indentSp d ++ ']' :: rest))) : List Char)
            = ('\n' :: indentSp (d + 1)) ++ (serValue (d + 1) x ++ (serArrRest (d + 1) xs
                ++ '\n' :: (indentSp d ++ ']' :: rest))) from rfl]
        rw [parseValue_ws f _ _ (newline_indent_ws (d + 1)), hxrt]
        split
        · next r heq =>
          injection heq with h1 h2
          exact absurd h1 hne0
        · show parseArrItems f [x]
              (serArrRest (d + 1) xs ++ '\n' :: (indentSp d ++ ']' :: rest))
            = some (Json.arr (x :: xs), rest)
          rw [parseArrItems_serArrRest d xs
                (fun y hy => hmem y (List.mem_cons_of_mem _ hy)) f (by omega) [x] rest]
          simp
    | obj kvs =>
      cases kvs with
      | nil =>
        rw [show serValue d (Json.obj []) = ['\x7b', '\x7d'] from by simp [serValue]]
        show parseValue (f + 1) ('\x7b' :: '\x7d' :: rest) = some (Json.obj [], rest)
        simp [parseValue, skipWs_cons_not_ws _ _ (by decide : isWsJson '\x7b' = false),
          skipWs_cons_not_ws _ _ (by decide : isWsJson '\x7d' = false)]
      | cons kv kvs =>
        obtain ⟨k, v⟩ := kv
        simp only [jsize, jsizeO] at hfuel
        have hmem : ∀ y ∈ (k, v) :: kvs, ∀ fuel2, jsize y.2 ≤ fuel2 →
            ∀ d2 rest2, DigitGuard rest2 →
              parseValue fuel2 (serValue d2 y.2 ++ rest2) = some (y.2, rest2) := by
          intro y hy fuel2 hf2 d2 rest2 hr2
          have h1 := List.sizeOf_lt_of_mem hy
          have h2 : sizeOf (Json.obj ((k, v) :: kvs)) = 1 + sizeOf ((k, v) :: kvs) := by
            simp
          have h3 : sizeOf y.2 ≤ sizeOf y := by
            obtain ⟨a, b⟩ := y
            simp
          exact ih (sizeOf y.2) (by omega) y.2 le_rfl fuel2 hf2 d2 rest2 hr2
        rw [show serValue d (Json.obj ((k, v) :: kvs)) ++ rest
              = '\x7b' :: (('\n' :: indentSp (d + 1)) ++ ('"' :: (escapeStr k.data
                  ++ '"' :: (':' :: ' ' :: (serValue (d + 1) v
                    ++ (serObjRest (d + 1) kvs
                      ++ '\n' :: (indentSp d ++ '\x7d' :: rest))))))) from by
            simp [serValue, List.append_assoc]]
        simp only [parseValue, skipWs_cons_not_ws _ _ (by decide : isWsJson '\x7b' = false)]
        rw [skipWs_append_ws _ _ (newline_indent_ws (d + 1))]
        rw [skipWs_cons_not_ws _ _ (by decide : isWsJson '"' = false)]
        show (match parseStrBody (escapeStr k.data
              ++ '"' :: (':' :: ' ' :: (serValue (d + 1) v
                ++ (serObjRest (d + 1) kvs
                  ++ '\n' :: (indentSp d ++ '\x7d' :: rest))))) with
          | some (k2, r2) =>
            (match skipWs r2 with
             | ':' :: r3 =>
               (match parseValue f r3 with
                | some (v2, r4) => parseObjItems f [(String.mk k2, v2)] r4
                | none => none)
             | _ => none)
          | none => none)
          = some (Json.obj ((k, v) :: kvs), rest)
        rw [parseStrBody_escape k.data]
        show (match skipWs (':' :: ' ' :: (serValue (d + 1) v
              ++ (serObjRest (d + 1) kvs ++ '\n' :: (indentSp d ++ '\x7d' :: rest)))) with
          | ':' :: r3 =>
            (match parseValue f r3 with
             | some (v2, r4) => parseObjItems f [(String.mk k.data, v2)] r4
             | none => none)
          | _ => none)
          = some (Json.obj ((k, v) :: kvs), rest)
        rw [skipWs_cons_not_ws _ _ (by decide : isWsJson ':' = false)]
        show (match parseValue f (' ' :: (serValue (d + 1) v
              ++ (serObjRest (d + 1) kvs ++ '\n' :: (indentSp d ++ '\x7d' :: rest)))) with
          | some (v2, r4) => parseObjItems f [(String.mk k.data, v2)] r4
          | none => none)
          = some (Json.obj ((k, v) :: kvs), rest)
        rw [show (' ' :: (serValue (d + 1) v
              ++ (serObjRest (d + 1) kvs ++ '\n' :: (indentSp d ++ '\x7d' :: rest))))
            = [' '] ++ (serValue (d + 1) v
              ++ (serObjRest (d + 1) kvs ++ '\n' :: (indentSp d ++ '\x7d' :: rest))) from rfl]
        rw [parseValue_ws f [' '] _ (by intro c hc; simp at hc; subst hc; decide)]
        have hguard := digitGuard_serObjTail (d + 1) kvs (indentSp d ++ '\x7d' :: rest)
        rw [hmem (k, v) (List.mem_cons_self _ _) f ((by omega : jsize v ≤ f)) (d + 1) _ hguard]
        show parseObjItems f [(String.mk k.data, v)]
            (serObjRest (d + 1) kvs ++ '\n' :: (indentSp d ++ '\x7d' :: rest))
          = some (Json.obj ((k, v) :: kvs), rest)
        rw [parseObjItems_serObjRest d kvs
              (fun y hy => hmem y (List.mem_cons_of_mem _ hy)) f (by omega)
              [(String.mk k.data, v)] rest]
        rfl

/-- `json.loads` inverts `json.dumps` on every JSON value of the model. -/
theorem json_roundtrip (j : Json) : json_loads (json_dumps j) = some j := by
  unfold json_loads json_dumps
  rw [data_mk]
  have hlen := jsize_le_serValue_length (sizeOf j) j le_rfl 0
  have hrt := parseValue_serValue (sizeOf j) j le_rfl ((serValue 0 j).length + 1)
    (by omega) 0 [] (by trivial)
  rw [List.append_nil] at hrt
  rw [hrt]
  simp [skipWs]

/-! ### Claim C7 -/

/-- C7: for every successful single-API ingestion, the JSON text written to
storage is `json_dumps` of the `full_data` record; parsing it back yields the
record unchanged — the original decoded upstream body under the `data` key
plus a `metadata` object with exactly the fields `ingestion_timestamp`,
`api_name`, `api_url`, `api_description`, `response_status` and
`request_params` — a round trip that loses no information. -/
theorem C7_storage_roundtrip (bucket api_name : String) (args : List (String × String))
    (cfg : ApiConfig) (r : UpstreamResponse) (data : Json) (t : Timestamp)
    (hreg : POSTMAN_APIS.lookup api_name = some cfg)
    (hst : ¬(400 ≤ r.status_code ∧ r.status_code < 600))
    (hjson : r.jsonBody = .ok data) :
    C7Prop bucket api_name args r data cfg t := by
  refine ⟨?_, json_roundtrip _, rfl, ⟨_, rfl, rfl⟩⟩
  simp only [ingest_api, hreg, hjson, if_neg hst]
  simp

/-- Witness for C7 at a concrete request. -/
theorem C7_storage_roundtrip_witness :
    POSTMAN_APIS.lookup "jsonplaceholder"
        = some { url := "https://jsonplaceholder.typicode.com/posts/1",
                 description := "Fake REST API for testing" }
    ∧ ¬(400 ≤ 200 ∧ 200 < 600)
    ∧ C7Prop "demo-bucket" "jsonplaceholder" [("q", "v")]
        { status_code := 200, errText := "",
          jsonBody := .ok (Json.obj [("userId", Json.num 1),
            ("title", Json.str "hello world")]) }
        (Json.obj [("userId", Json.num 1), ("title", Json.str "hello world")])
        { url := "https://jsonplaceholder.typicode.com/posts/1",
          description := "Fake REST API for testing" }
        (Timestamp.mk 2026 10 12 3 4 5 123456) :=
  ⟨rfl, by decide,
   C7_storage_roundtrip "demo-bucket" "jsonplaceholder" [("q", "v")] _ _ _ _
     rfl (by decide) rfl⟩
